import Mathlib

/-!
Verification of webook-interactive: counters, like marks and collection marks

A shallow embedding of the interactive module of webook:

* `dao`        : `repository/dao/interactive.go`  (the GORM backed store),
* `repository` : `repository/interactive.go`      (store first, cache second),
* `service`    : `service/interactive.go`         (aggregation for clients).

Go values of type `error` are `Option Error` (`none` is `nil`); a Go result
`(T, error)` is a pair `T × Option Error`.  Stateful code is written in state
passing style.  The SQL engine behind GORM is external to the repository; it
is described by a small relational model (`Tables`) whose statements can be
made to fail by a fault plan carried by the connection.  Column arithmetic
(`read_cnt + 1`, `like_cnt - 1`) is executed by the engine and is modelled on
mathematical integers; a statement the engine rejects (a lost connection, a
value out of the range of the column) is a fault of that plan.  The unique
indexes of the three tables are the ones the struct tags declare to gorm;
they decide which stored row an upsert without conflict columns updates.
-/

namespace webook

/-- Go `error` values.  `ErrRecordNotFound` is the sentinel the repository
compares against; every other failure (driver, network, cache) is `other`. -/
inductive Error where
  | ErrRecordNotFound
  | ErrDuplicatedKey
  | ErrKeyNotExist
  | other (code : Nat)
  deriving DecidableEq, Repr

namespace dao

/-- Row of the counter table (`type Interactive struct`). -/
structure Interactive where
  Id : Int
  BizId : Int
  Biz : String
  ReadCnt : Int
  LikeCnt : Int
  CollectCnt : Int
  Utime : Int
  Ctime : Int
  deriving DecidableEq, Repr

/-- Row of the like-mark table (`type UserLikeBiz struct`). -/
structure UserLikeBiz where
  Id : Int
  Uid : Int
  BizId : Int
  Biz : String
  Status : Nat
  Utime : Int
  Ctime : Int
  deriving DecidableEq, Repr

/-- Row of the collection-mark table (`type UserCollectionBiz struct`). -/
structure UserCollectionBiz where
  Id : Int
  Uid : Int
  BizId : Int
  Biz : String
  Cid : Int
  Utime : Int
  Ctime : Int
  deriving DecidableEq, Repr

/-- Go zero value of `Interactive`. -/
def Interactive.zero : Interactive := ⟨0, 0, "", 0, 0, 0, 0, 0⟩

/-- Go zero value of `UserLikeBiz`. -/
def UserLikeBiz.zero : UserLikeBiz := ⟨0, 0, 0, "", 0, 0, 0⟩

/-- Go zero value of `UserCollectionBiz`. -/
def UserCollectionBiz.zero : UserCollectionBiz := ⟨0, 0, 0, "", 0, 0, 0⟩

/-- The three relations of the store. -/
structure Tables where
  interactives : List Interactive
  userLikeBizs : List UserLikeBiz
  userCollectionBizs : List UserCollectionBiz
  deriving DecidableEq, Repr

/-- The store with no rows. -/
def Tables.empty : Tables := ⟨[], [], []⟩

/-- A `GORMInteractiveDAO` is its connection `db`.  Besides the tables the
connection carries what the environment decides: `faults`, the outcome the
engine gives to the coming statements, one entry per statement (`some e`: the
statement fails with `e` and has no effect; `none` or an exhausted plan: it
runs), and `clock`, the values the coming `time.Now().UnixMilli()` calls
return. -/
structure GORMInteractiveDAO where
  db : Tables
  faults : List (Option Error)
  clock : List Int
  deriving DecidableEq, Repr

/-- Constructor `NewGORMInteractiveDAO` on a store, with an engine that never fails. -/
def NewGORMInteractiveDAO (db : Tables) : GORMInteractiveDAO := ⟨db, [], []⟩

/-- The call `time.Now().UnixMilli()`. -/
def timeNow (g : GORMInteractiveDAO) : Int × GORMInteractiveDAO :=
  (g.clock.headD 0, { g with clock := g.clock.tail })

/-- One write statement sent to the engine. -/
def exec (g : GORMInteractiveDAO) (stmt : Tables → Except Error Tables) :
    Option Error × GORMInteractiveDAO :=
  match g.faults.headD none with
  | some e => (some e, { g with faults := g.faults.tail })
  | none =>
    match stmt g.db with
    | .ok db => (none, { g with db := db, faults := g.faults.tail })
    | .error e => (some e, { g with faults := g.faults.tail })

/-- One read statement sent to the engine; `zero` is what the destination
holds when the statement fails. -/
def query {α : Type} (g : GORMInteractiveDAO) (zero : α) (q : Tables → α × Option Error) :
    (α × Option Error) × GORMInteractiveDAO :=
  match g.faults.headD none with
  | some e => ((zero, some e), { g with faults := g.faults.tail })
  | none => (q g.db, { g with faults := g.faults.tail })

/-- Outcome of a Go call that may panic instead of returning its `error`. -/
inductive Outcome where
  | returned (err : Option Error)
  | panicked
  deriving DecidableEq, Repr

/-- The body of `db.Transaction(fc)` for a closure with results in `ρ`: begin,
run `fc`, commit when `fc` succeeded (`ok`), and roll back to the tables at
begin when `fc` did not succeed (an error, or a panic passing through the
deferred rollback) or when the commit fails. -/
def runTransaction {ρ : Type} (ok : ρ → Bool) (failed : Error → ρ)
    (g : GORMInteractiveDAO) (fc : GORMInteractiveDAO → ρ × GORMInteractiveDAO) :
    ρ × GORMInteractiveDAO :=
  match g.faults.headD none with
  | some e => (failed e, { g with faults := g.faults.tail })
  | none =>
    let r := fc { g with faults := g.faults.tail }
    if ok r.1 then
      match r.2.faults.headD none with
      | some e => (failed e, { r.2 with db := g.db, faults := r.2.faults.tail })
      | none => (r.1, { r.2 with faults := r.2.faults.tail })
    else (r.1, { r.2 with db := g.db })

/-- The call `db.Transaction(fc)` for a closure that returns its `error`. -/
def Transaction (g : GORMInteractiveDAO)
    (fc : GORMInteractiveDAO → Option Error × GORMInteractiveDAO) :
    Option Error × GORMInteractiveDAO :=
  runTransaction Option.isNone some g fc

/-- The auto-increment primary key given to a new row. -/
def nextId (ids : List Int) : Int := ids.foldr max 0 + 1

/-- The upsert `Clauses(clause.OnConflict(DoUpdates)).Create(row)`, which names
no conflict columns: when a stored row conflicts with the new one on a unique
index (`conflicts`) it is updated by `upd`, otherwise `fresh` is inserted. -/
def createOnConflict {α : Type} (conflicts : α → Bool) (upd : α → α) (fresh : α)
    (rows : List α) : List α :=
  if rows.any conflicts then rows.map (fun r => if conflicts r then upd r else r)
  else rows ++ [fresh]

/-- The update `Model(..).Where(..).Updates(..)`: every matching row is updated; no
matching row is not an error. -/
def updatesWhere {α : Type} (cond : α → Bool) (upd : α → α) (rows : List α) : List α :=
  rows.map (fun r => if cond r then upd r else r)

/-- The lookup `Where(..).First(&res)`: the matching row with the least primary key, or
`ErrRecordNotFound`. -/
def first {α : Type} (cond : α → Bool) (id : α → Int) (zero : α) (rows : List α) :
    α × Option Error :=
  match rows.filter cond with
  | [] => (zero, some Error.ErrRecordNotFound)
  | r :: rs => (rs.foldl (fun m x => if id x < id m then x else m) r, none)

/-- The unique index `biz_type_id` of the counter table, as the struct tags
declare it.  gorm separates the settings of a tag by `;` and a setting's name
from its value by `:`.  The tag of `BizId` is `uniqueIndex:biz_type_id`; the
tag of `Biz` is written `type=varchar(128), uniqueIndex:biz_type_id`, which is
one setting of an unknown name, so `Biz` is no column of the index (the
comment on the fields announces a composite index on `bizid, biz`).  A new
row therefore conflicts with a stored row of the same `biz_id`, whatever its
`biz`. -/
def Interactive.conflicts (bizId : Int) (r : Interactive) : Bool :=
  r.BizId == bizId

/-- The unique index `uid_biz_type_id` of the like-mark table, as the struct
tags declare it: `Uid` and `BizId` carry `uniqueIndex:uid_biz_type_id`, the
tag of `Biz` is again `type=varchar(128), uniqueIndex:uid_biz_type_id` and
adds no column.  A new mark conflicts with a stored mark of the same `uid`
and `biz_id`, whatever its `biz`. -/
def UserLikeBiz.conflicts (uid : Int) (bizId : Int) (r : UserLikeBiz) : Bool :=
  r.Uid == uid && r.BizId == bizId

/-- The unique index `uid_biz_type_id` of the collection-mark table, as the
struct tags declare it: columns `uid` and `biz_id`, for the same reason. -/
def UserCollectionBiz.conflicts (uid : Int) (bizId : Int) (r : UserCollectionBiz) : Bool :=
  r.Uid == uid && r.BizId == bizId

/-- The condition `Where("biz_id = ? AND biz = ?", bizId, biz)` on the counter
table. -/
def Interactive.matches (biz : String) (bizId : Int) (r : Interactive) : Bool :=
  r.BizId == bizId && r.Biz == biz

/-- The condition `Where("uid = ? AND biz_id = ? AND biz = ?", uid, bizId, biz)`
on the like-mark table. -/
def UserLikeBiz.matches (uid : Int) (biz : String) (bizId : Int) (r : UserLikeBiz) : Bool :=
  r.Uid == uid && r.BizId == bizId && r.Biz == biz

/-- The condition `Where("uid = ? AND biz_id = ? AND biz = ?", uid, bizId, biz)`
on the collection-mark table. -/
def UserCollectionBiz.matches (uid : Int) (biz : String) (bizId : Int)
    (r : UserCollectionBiz) : Bool :=
  r.Uid == uid && r.BizId == bizId && r.Biz == biz

/-- Method `GORMInteractiveDAO.GetByIds`: `Where("biz_id IN ? AND biz = ?").First(&res)`
with a slice destination. -/
def GetByIds (g : GORMInteractiveDAO) (biz : String) (bizIds : List Int) :
    (List Interactive × Option Error) × GORMInteractiveDAO :=
  query g [] (fun t =>
    match first (fun r => decide (r.BizId ∈ bizIds) && r.Biz == biz) (·.Id)
        Interactive.zero t.interactives with
    | (r, none) => ([r], none)
    | (_, some e) => ([], some e))

/-- Method `GORMInteractiveDAO.Get`. -/
def Get (g : GORMInteractiveDAO) (biz : String) (bizId : Int) :
    (Interactive × Option Error) × GORMInteractiveDAO :=
  query g Interactive.zero (fun t =>
    first (Interactive.matches biz bizId) (·.Id) Interactive.zero t.interactives)

/-- Method `GORMInteractiveDAO.GetCollectInfo`. -/
def GetCollectInfo (g : GORMInteractiveDAO) (biz : String) (bizId : Int) (uid : Int) :
    (UserCollectionBiz × Option Error) × GORMInteractiveDAO :=
  query g UserCollectionBiz.zero (fun t =>
    first (UserCollectionBiz.matches uid biz bizId) (·.Id) UserCollectionBiz.zero
      t.userCollectionBizs)

/-- Method `GORMInteractiveDAO.GetLikeInfo`: only a mark with `status = 1` matches. -/
def GetLikeInfo (g : GORMInteractiveDAO) (biz : String) (bizId : Int) (uid : Int) :
    (UserLikeBiz × Option Error) × GORMInteractiveDAO :=
  query g UserLikeBiz.zero (fun t =>
    first (fun r => UserLikeBiz.matches uid biz bizId r && r.Status == 1) (·.Id)
      UserLikeBiz.zero t.userLikeBizs)

/-- The counter upsert shared by the three increments: insert `fresh` (with a
new primary key), or apply `upd` to the stored row that `fresh` conflicts
with on the unique index. -/
def upsertInteractive (fresh : Interactive) (upd : Interactive → Interactive)
    (t : Tables) : Except Error Tables :=
  .ok { t with interactives :=
    (createOnConflict (Interactive.conflicts fresh.BizId) upd
      { fresh with Id := nextId (t.interactives.map (·.Id)) } t.interactives) }

/-- Method `GORMInteractiveDAO.InsertCollectionBiz`. -/
def InsertCollectionBiz (g : GORMInteractiveDAO) (biz : String) (bizId : Int) (cid : Int)
    (uid : Int) : Option Error × GORMInteractiveDAO :=
  let (now, g) := timeNow g
  Transaction g (fun tx =>
    let r := exec tx (fun t =>
      if t.userCollectionBizs.any (UserCollectionBiz.conflicts uid bizId) then
        .error Error.ErrDuplicatedKey
      else
        .ok { t with userCollectionBizs := (t.userCollectionBizs ++
          [⟨nextId (t.userCollectionBizs.map (·.Id)), uid, bizId, biz, cid, now, now⟩]) })
    match r.1 with
    | some err => (some err, r.2)
    | none =>
      exec r.2 (upsertInteractive ⟨0, bizId, biz, 0, 0, 1, now, now⟩
        (fun row => { row with CollectCnt := row.CollectCnt + 1, Utime := now })))

/-- Method `GORMInteractiveDAO.InsertLikeInfo`. -/
def InsertLikeInfo (g : GORMInteractiveDAO) (biz : String) (bizId : Int) (uid : Int) :
    Option Error × GORMInteractiveDAO :=
  let (now, g) := timeNow g
  Transaction g (fun tx =>
    let r := exec tx (fun t =>
      .ok { t with userLikeBizs :=
        (createOnConflict (UserLikeBiz.conflicts uid bizId)
          (fun row => { row with Utime := now, Status := 1 })
          ⟨nextId (t.userLikeBizs.map (·.Id)), uid, bizId, biz, 1, now, now⟩
          t.userLikeBizs) })
    match r.1 with
    | some err => (some err, r.2)
    | none =>
      exec r.2 (upsertInteractive ⟨0, bizId, biz, 0, 1, 0, now, now⟩
        (fun row => { row with LikeCnt := row.LikeCnt + 1, Utime := now })))

/-- Method `GORMInteractiveDAO.DeleteLikeInfo`. -/
def DeleteLikeInfo (g : GORMInteractiveDAO) (biz : String) (bizId : Int) (uid : Int) :
    Option Error × GORMInteractiveDAO :=
  let (now, g) := timeNow g
  Transaction g (fun tx =>
    let r := exec tx (fun t =>
      .ok { t with userLikeBizs :=
        (updatesWhere (UserLikeBiz.matches uid biz bizId)
          (fun row => { row with Utime := now, Status := 0 }) t.userLikeBizs) })
    match r.1 with
    | some err => (some err, r.2)
    | none =>
      exec r.2 (fun t =>
        .ok { t with interactives :=
          (updatesWhere (Interactive.matches biz bizId)
            (fun row => { row with LikeCnt := row.LikeCnt - 1, Utime := now })
            t.interactives) }))

/-- Method `GORMInteractiveDAO.IncrReadCnt`. -/
def IncrReadCnt (g : GORMInteractiveDAO) (biz : String) (bizId : Int) :
    Option Error × GORMInteractiveDAO :=
  let (now, g) := timeNow g
  exec g (upsertInteractive ⟨0, bizId, biz, 1, 0, 0, now, now⟩
    (fun row => { row with ReadCnt := row.ReadCnt + 1, Utime := now }))

/-- The loop `for i := 0; i < len(bizs); i++` of `BatchIncrReadCnt`, from `i`
on; `rest` is `bizs[i:]`. -/
def batchLoop (tx : GORMInteractiveDAO) (bizIds : List Int) :
    Nat → List String → Outcome × GORMInteractiveDAO
  | _, [] => (Outcome.returned none, tx)
  | i, biz :: rest =>
    match bizIds.get? i with
    | none => (Outcome.panicked, tx)
    | some bizId =>
      let r := IncrReadCnt tx biz bizId
      match r.1 with
      | some err => (Outcome.returned (some err), r.2)
      | none => batchLoop r.2 bizIds (i + 1) rest

/-- Method `GORMInteractiveDAO.BatchIncrReadCnt`: the loop inside one transaction.
`bizIds[i]` panics when `bizIds` is shorter than `bizs`. -/
def BatchIncrReadCnt (g : GORMInteractiveDAO) (bizs : List String) (bizIds : List Int) :
    Outcome × GORMInteractiveDAO :=
  runTransaction (fun o => decide (o = Outcome.returned none))
    (fun e => Outcome.returned (some e)) g (fun tx => batchLoop tx bizIds 0 bizs)

end dao

/-- The interface `dao.InteractiveDAO`, over the state `σ` of the store behind
it. -/
structure dao.InteractiveDAO (σ : Type) where
  IncrReadCnt : σ → String → Int → Option Error × σ
  BatchIncrReadCnt : σ → List String → List Int → dao.Outcome × σ
  InsertLikeInfo : σ → String → Int → Int → Option Error × σ
  DeleteLikeInfo : σ → String → Int → Int → Option Error × σ
  InsertCollectionBiz : σ → String → Int → Int → Int → Option Error × σ
  GetLikeInfo : σ → String → Int → Int → (dao.UserLikeBiz × Option Error) × σ
  GetCollectInfo : σ → String → Int → Int → (dao.UserCollectionBiz × Option Error) × σ
  Get : σ → String → Int → (dao.Interactive × Option Error) × σ
  GetByIds : σ → String → List Int → (List dao.Interactive × Option Error) × σ

/-- The type `GORMInteractiveDAO` implements `InteractiveDAO`. -/
def dao.gorm : dao.InteractiveDAO dao.GORMInteractiveDAO where
  IncrReadCnt := dao.IncrReadCnt
  BatchIncrReadCnt := dao.BatchIncrReadCnt
  InsertLikeInfo := dao.InsertLikeInfo
  DeleteLikeInfo := dao.DeleteLikeInfo
  InsertCollectionBiz := dao.InsertCollectionBiz
  GetLikeInfo := dao.GetLikeInfo
  GetCollectInfo := dao.GetCollectInfo
  Get := dao.Get
  GetByIds := dao.GetByIds

namespace domain

/-- Modelled from the spec: the declaration of `domain.Interactive` is not
among the sources; these are the fields the sources read and write (the
counter snapshot of the spec with the two per-user flags). -/
structure Interactive where
  BizId : Int
  ReadCnt : Int
  LikeCnt : Int
  CollectCnt : Int
  Liked : Bool
  Collected : Bool
  deriving DecidableEq, Repr

/-- Go zero value `domain.Interactive{}`. -/
def Interactive.zero : Interactive := ⟨0, 0, 0, 0, false, false⟩

end domain

namespace cache

/-- Modelled from the spec: the interface `cache.InteractiveCache` is not
among the sources; these are the methods the repository calls on it, over the
state `κ` of the cache behind it. -/
structure InteractiveCache (κ : Type) where
  Get : κ → String → Int → (domain.Interactive × Option Error) × κ
  Set : κ → String → Int → domain.Interactive → Option Error × κ
  IncrReadCntIfPresent : κ → String → Int → Option Error × κ
  IncrLikeCntIfPresent : κ → String → Int → Option Error × κ
  DecrLikeCntIfPresent : κ → String → Int → Option Error × κ
  IncrCollectCntIfPresent : κ → String → Int → Option Error × κ

/-- Modelled from the spec: an in-memory cache backend (no implementation of
the cache is among the sources).  `entries` holds one snapshot per cached
`(biz, bizId)`; `faults` is the outcome the backend gives to the coming calls,
as for the store. -/
structure MemCache where
  entries : List ((String × Int) × domain.Interactive)
  faults : List (Option Error)
  deriving DecidableEq, Repr

/-- One call to the backend: the planned fault, or `op` on the entries. -/
def MemCache.call {α : Type} (k : MemCache) (zero : α)
    (op : List ((String × Int) × domain.Interactive) →
      (α × Option Error) × List ((String × Int) × domain.Interactive)) :
    (α × Option Error) × MemCache :=
  match k.faults.headD none with
  | some e => ((zero, some e), { k with faults := k.faults.tail })
  | none => ((op k.entries).1, { entries := (op k.entries).2, faults := k.faults.tail })

/-- Adjusting a cached snapshot by `f` only if an entry exists for the key;
an absent entry is left absent. -/
def MemCache.adjustIfPresent (f : domain.Interactive → domain.Interactive)
    (k : MemCache) (biz : String) (bizId : Int) : Option Error × MemCache :=
  let r := k.call () (fun es =>
    (((), none), es.map (fun p => if p.1 = (biz, bizId) then (p.1, f p.2) else p)))
  (r.1.2, r.2)

/-- Modelled from the spec: the cache contract of the spec (`Get` gives the
snapshot or a miss indicator, `Set` overwrites, the `IfPresent` adjustments
change an existing entry by one and create nothing) on `MemCache`. -/
def mem : InteractiveCache MemCache where
  Get := fun k biz bizId =>
    k.call domain.Interactive.zero (fun es =>
      match es.find? (fun p => p.1 == (biz, bizId)) with
      | some p => ((p.2, none), es)
      | none => ((domain.Interactive.zero, some Error.ErrKeyNotExist), es))
  Set := fun k biz bizId v =>
    let r := k.call () (fun es =>
      (((), none), es.filter (fun p => p.1 != (biz, bizId)) ++ [((biz, bizId), v)]))
    (r.1.2, r.2)
  IncrReadCntIfPresent := MemCache.adjustIfPresent (fun v => { v with ReadCnt := v.ReadCnt + 1 })
  IncrLikeCntIfPresent := MemCache.adjustIfPresent (fun v => { v with LikeCnt := v.LikeCnt + 1 })
  DecrLikeCntIfPresent := MemCache.adjustIfPresent (fun v => { v with LikeCnt := v.LikeCnt - 1 })
  IncrCollectCntIfPresent :=
    MemCache.adjustIfPresent (fun v => { v with CollectCnt := v.CollectCnt + 1 })

end cache

namespace repository

open dao (Outcome)

/-- A goroutine started with `go func() { ... }()` and not awaited. -/
inductive Goroutine where
  | cacheSet (biz : String) (bizId : Int) (res : domain.Interactive)
  | batchIncr (bizs : List String) (bizIds : List Int)
  deriving DecidableEq, Repr

/-- State behind a `CachedInteractiveRepository`: the store behind `c.dao`,
the cache behind `c.cache`, and the goroutines it has started so far.  The
logger `c.l` is not modelled. -/
structure CachedInteractiveRepository (σ κ : Type) where
  dao : σ
  cache : κ
  spawned : List Goroutine

variable {σ κ : Type}

/-- Method `CachedInteractiveRepository.toDomain`. -/
def toDomain (ie : dao.Interactive) : domain.Interactive :=
  { BizId := ie.BizId, ReadCnt := ie.ReadCnt, LikeCnt := ie.LikeCnt,
    CollectCnt := ie.CollectCnt, Liked := false, Collected := false }

/-- Method `CachedInteractiveRepository.GetByIds`. -/
def GetByIds (D : dao.InteractiveDAO σ) (c : CachedInteractiveRepository σ κ)
    (biz : String) (bizIds : List Int) :
    (List domain.Interactive × Option Error) × CachedInteractiveRepository σ κ :=
  let r := D.GetByIds c.dao biz bizIds
  match r.1.2 with
  | some err => (([], some err), { c with dao := r.2 })
  | none => ((r.1.1.map toDomain, none), { c with dao := r.2 })

/-- Method `CachedInteractiveRepository.Get`. -/
def Get (D : dao.InteractiveDAO σ) (C : cache.InteractiveCache κ)
    (c : CachedInteractiveRepository σ κ) (biz : String) (bizId : Int) :
    (domain.Interactive × Option Error) × CachedInteractiveRepository σ κ :=
  let h := C.Get c.cache biz bizId
  match h.1.2 with
  | none => ((h.1.1, none), { c with cache := h.2 })
  | some _ =>
    let r := D.Get c.dao biz bizId
    match r.1.2 with
    | some err => ((domain.Interactive.zero, some err), { c with cache := h.2, dao := r.2 })
    | none =>
      let res := toDomain r.1.1
      ((res, none),
        { cache := h.2, dao := r.2,
          spawned := c.spawned ++ [Goroutine.cacheSet biz bizId res] })

/-- Method `CachedInteractiveRepository.Liked`. -/
def Liked (D : dao.InteractiveDAO σ) (c : CachedInteractiveRepository σ κ)
    (biz : String) (bizId : Int) (uid : Int) :
    (Bool × Option Error) × CachedInteractiveRepository σ κ :=
  let r := D.GetLikeInfo c.dao biz bizId uid
  match r.1.2 with
  | none => ((true, none), { c with dao := r.2 })
  | some Error.ErrRecordNotFound => ((false, none), { c with dao := r.2 })
  | some err => ((false, some err), { c with dao := r.2 })

/-- Method `CachedInteractiveRepository.Collected`. -/
def Collected (D : dao.InteractiveDAO σ) (c : CachedInteractiveRepository σ κ)
    (biz : String) (bizId : Int) (uid : Int) :
    (Bool × Option Error) × CachedInteractiveRepository σ κ :=
  let r := D.GetCollectInfo c.dao biz bizId uid
  match r.1.2 with
  | none => ((true, none), { c with dao := r.2 })
  | some Error.ErrRecordNotFound => ((false, none), { c with dao := r.2 })
  | some err => ((false, some err), { c with dao := r.2 })

/-- Method `CachedInteractiveRepository.AddCollectionItem`. -/
def AddCollectionItem (D : dao.InteractiveDAO σ) (C : cache.InteractiveCache κ)
    (c : CachedInteractiveRepository σ κ) (biz : String) (bizId : Int) (cid : Int)
    (uid : Int) : Option Error × CachedInteractiveRepository σ κ :=
  let r := D.InsertCollectionBiz c.dao biz bizId cid uid
  match r.1 with
  | some err => (some err, { c with dao := r.2 })
  | none =>
    let k := C.IncrCollectCntIfPresent c.cache biz bizId
    (k.1, { c with dao := r.2, cache := k.2 })

/-- Method `CachedInteractiveRepository.IncrLike`. -/
def IncrLike (D : dao.InteractiveDAO σ) (C : cache.InteractiveCache κ)
    (c : CachedInteractiveRepository σ κ) (biz : String) (bizId : Int) (uid : Int) :
    Option Error × CachedInteractiveRepository σ κ :=
  let r := D.InsertLikeInfo c.dao biz bizId uid
  match r.1 with
  | some err => (some err, { c with dao := r.2 })
  | none =>
    let k := C.IncrLikeCntIfPresent c.cache biz bizId
    (k.1, { c with dao := r.2, cache := k.2 })

/-- Method `CachedInteractiveRepository.DecrLike`. -/
def DecrLike (D : dao.InteractiveDAO σ) (C : cache.InteractiveCache κ)
    (c : CachedInteractiveRepository σ κ) (biz : String) (bizId : Int) (uid : Int) :
    Option Error × CachedInteractiveRepository σ κ :=
  let r := D.DeleteLikeInfo c.dao biz bizId uid
  match r.1 with
  | some err => (some err, { c with dao := r.2 })
  | none =>
    let k := C.DecrLikeCntIfPresent c.cache biz bizId
    (k.1, { c with dao := r.2, cache := k.2 })

/-- Method `CachedInteractiveRepository.BatchIncrReadCnt`: the cache is adjusted by a
goroutine that is started after the store has committed and is not awaited. -/
def BatchIncrReadCnt (D : dao.InteractiveDAO σ) (c : CachedInteractiveRepository σ κ)
    (bizs : List String) (bizIds : List Int) :
    Outcome × CachedInteractiveRepository σ κ :=
  let r := D.BatchIncrReadCnt c.dao bizs bizIds
  match r.1 with
  | Outcome.panicked => (Outcome.panicked, { c with dao := r.2 })
  | Outcome.returned (some err) => (Outcome.returned (some err), { c with dao := r.2 })
  | Outcome.returned none =>
    (Outcome.returned none,
      { c with dao := r.2, spawned := c.spawned ++ [Goroutine.batchIncr bizs bizIds] })

/-- Method `CachedInteractiveRepository.IncrReadCnt`. -/
def IncrReadCnt (D : dao.InteractiveDAO σ) (C : cache.InteractiveCache κ)
    (c : CachedInteractiveRepository σ κ) (biz : String) (bizId : Int) :
    Option Error × CachedInteractiveRepository σ κ :=
  let r := D.IncrReadCnt c.dao biz bizId
  match r.1 with
  | some err => (some err, { c with dao := r.2 })
  | none =>
    let k := C.IncrReadCntIfPresent c.cache biz bizId
    (k.1, { c with dao := r.2, cache := k.2 })

/-- The loop of the goroutine of `BatchIncrReadCnt`, from index `i` on; the
error of each cache call is dropped.  `none`: `bizIds[i]` panicked. -/
def batchIncrLoop (C : cache.InteractiveCache κ) (bizIds : List Int) :
    Nat → List String → κ → Option κ
  | _, [], k => some k
  | i, biz :: rest, k =>
    match bizIds.get? i with
    | none => none
    | some bizId => batchIncrLoop C bizIds (i + 1) rest (C.IncrReadCntIfPresent k biz bizId).2

/-- Running a started goroutine to its end on the cache (`none`: it
panicked). -/
def Goroutine.run (C : cache.InteractiveCache κ) (k : κ) : Goroutine → Option κ
  | Goroutine.cacheSet biz bizId res => some (C.Set k biz bizId res).2
  | Goroutine.batchIncr bizs bizIds => batchIncrLoop C bizIds 0 bizs k

/-- The interface `repository.InteractiveRepository`, over the state `ρ`
behind it. -/
structure InteractiveRepository (ρ : Type) where
  IncrReadCnt : ρ → String → Int → Option Error × ρ
  BatchIncrReadCnt : ρ → List String → List Int → Outcome × ρ
  IncrLike : ρ → String → Int → Int → Option Error × ρ
  DecrLike : ρ → String → Int → Int → Option Error × ρ
  AddCollectionItem : ρ → String → Int → Int → Int → Option Error × ρ
  Get : ρ → String → Int → (domain.Interactive × Option Error) × ρ
  Liked : ρ → String → Int → Int → (Bool × Option Error) × ρ
  Collected : ρ → String → Int → Int → (Bool × Option Error) × ρ
  GetByIds : ρ → String → List Int → (List domain.Interactive × Option Error) × ρ

/-- Constructor `NewCachedInteractiveRepository`: the cached repository as an
`InteractiveRepository`. -/
def NewCachedInteractiveRepository (D : dao.InteractiveDAO σ) (C : cache.InteractiveCache κ) :
    InteractiveRepository (CachedInteractiveRepository σ κ) where
  IncrReadCnt := IncrReadCnt D C
  BatchIncrReadCnt := BatchIncrReadCnt D
  IncrLike := IncrLike D C
  DecrLike := DecrLike D C
  AddCollectionItem := AddCollectionItem D C
  Get := Get D C
  Liked := Liked D
  Collected := Collected D
  GetByIds := GetByIds D

end repository

namespace service

variable {ρ : Type}

/-- A Go `map[int64]domain.Interactive`: at most one entry per key. -/
abbrev InteractiveMap := List (Int × domain.Interactive)

/-- The assignment `res[k] = v`. -/
def InteractiveMap.set (m : InteractiveMap) (k : Int) (v : domain.Interactive) :
    InteractiveMap :=
  if m.any (fun p => p.1 == k) then m.map (fun p => if p.1 = k then (k, v) else p)
  else m ++ [(k, v)]

/-- The lookup `res[k]` with its presence flag. -/
def InteractiveMap.get (m : InteractiveMap) (k : Int) : Option domain.Interactive :=
  (m.find? (fun p => p.1 == k)).map (·.2)

/-- Method `interactiveService.GetByIds`. -/
def GetByIds (R : repository.InteractiveRepository ρ) (r : ρ) (biz : String)
    (ids : List Int) : (InteractiveMap × Option Error) × ρ :=
  let a := R.GetByIds r biz ids
  match a.1.2 with
  | some err => (([], some err), a.2)
  | none => ((a.1.1.foldl (fun res intr => res.set intr.BizId intr) [], none), a.2)

/-- The call `errgroup.Group.Wait`: the first non-nil error among the goroutines, in
the order in which they finished. -/
def egWait : List (Option Error) → Option Error
  | [] => none
  | some err :: _ => some err
  | none :: rest => egWait rest

/-- Method `interactiveService.Get`.  The two goroutines of the `errgroup` call the
repository concurrently; `likedFirst` is the scheduler's choice of which of
the two calls runs (and finishes) first. -/
def Get (R : repository.InteractiveRepository ρ) (likedFirst : Bool) (r : ρ)
    (biz : String) (bizId : Int) (uid : Int) : (domain.Interactive × Option Error) × ρ :=
  let a := R.Get r biz bizId
  match a.1.2 with
  | some err => ((domain.Interactive.zero, some err), a.2)
  | none =>
    let intr := a.1.1
    if likedFirst then
      let l := R.Liked a.2 biz bizId uid
      let c := R.Collected l.2 biz bizId uid
      (({ intr with Liked := l.1.1, Collected := c.1.1 }, egWait [l.1.2, c.1.2]), c.2)
    else
      let c := R.Collected a.2 biz bizId uid
      let l := R.Liked c.2 biz bizId uid
      (({ intr with Liked := l.1.1, Collected := c.1.1 }, egWait [c.1.2, l.1.2]), l.2)

/-- Method `interactiveService.Collect`. -/
def Collect (R : repository.InteractiveRepository ρ) (r : ρ) (biz : String)
    (bizId cid uid : Int) : Option Error × ρ :=
  R.AddCollectionItem r biz bizId cid uid

/-- Method `interactiveService.Like`. -/
def Like (R : repository.InteractiveRepository ρ) (r : ρ) (biz : String)
    (bizId uid : Int) : Option Error × ρ :=
  R.IncrLike r biz bizId uid

/-- Method `interactiveService.CancelLike`. -/
def CancelLike (R : repository.InteractiveRepository ρ) (r : ρ) (biz : String)
    (bizId uid : Int) : Option Error × ρ :=
  R.DecrLike r biz bizId uid

/-- Method `interactiveService.IncrReadCnt`. -/
def IncrReadCnt (R : repository.InteractiveRepository ρ) (r : ρ) (biz : String)
    (bizId : Int) : Option Error × ρ :=
  R.IncrReadCnt r biz bizId

end service

end webook

namespace webook

namespace dao

/-- The engine runs the next statement: no fault is planned for it. -/
def NextOk (g : GORMInteractiveDAO) : Prop := g.faults.headD none = none

/-- The engine runs every coming statement. -/
def FaultFree (g : GORMInteractiveDAO) : Prop := ∀ f ∈ g.faults, f = none

instance (g : GORMInteractiveDAO) : Decidable (NextOk g) := by
  unfold NextOk; infer_instance

instance (g : GORMInteractiveDAO) : Decidable (FaultFree g) := by
  unfold FaultFree; infer_instance

/-- The counter rows of `bizId` after `m` increments of the read count of
`(biz, bizId)` on a store that had no row of `bizId`: none when `m = 0`,
otherwise exactly one, of `biz`, with `ReadCnt = m` and the other two counters
`0`. -/
def CountedRow (biz : String) (bizId : Int) (m : Nat) (t : Tables) : Prop :=
  (m = 0 → t.interactives.filter (Interactive.conflicts bizId) = []) ∧
  (0 < m → ∃ r, t.interactives.filter (Interactive.conflicts bizId) = [r] ∧
    r.Biz = biz ∧ r.ReadCnt = m ∧ r.LikeCnt = 0 ∧ r.CollectCnt = 0)

/-- A write operation of the store with its arguments. -/
inductive WriteOp where
  | IncrReadCnt (biz : String) (bizId : Int)
  | BatchIncrReadCnt (bizs : List String) (bizIds : List Int)
  | InsertLikeInfo (biz : String) (bizId : Int) (uid : Int)
  | DeleteLikeInfo (biz : String) (bizId : Int) (uid : Int)
  | InsertCollectionBiz (biz : String) (bizId : Int) (cid : Int) (uid : Int)
  deriving DecidableEq, Repr

/-- The store after one write operation (whatever the operation returned). -/
def WriteOp.apply (g : GORMInteractiveDAO) : WriteOp → GORMInteractiveDAO
  | WriteOp.IncrReadCnt biz bizId => (dao.IncrReadCnt g biz bizId).2
  | WriteOp.BatchIncrReadCnt bizs bizIds => (dao.BatchIncrReadCnt g bizs bizIds).2
  | WriteOp.InsertLikeInfo biz bizId uid => (dao.InsertLikeInfo g biz bizId uid).2
  | WriteOp.DeleteLikeInfo biz bizId uid => (dao.DeleteLikeInfo g biz bizId uid).2
  | WriteOp.InsertCollectionBiz biz bizId cid uid => (dao.InsertCollectionBiz g biz bizId cid uid).2

/-- The store after a sequence of write operations. -/
def runOps (g : GORMInteractiveDAO) (ops : List WriteOp) : GORMInteractiveDAO :=
  ops.foldl WriteOp.apply g

/-- Whether the operation is a `DeleteLikeInfo`. -/
def WriteOp.isDelete : WriteOp → Bool
  | WriteOp.DeleteLikeInfo _ _ _ => true
  | _ => false

/-- Bounds on the counters of every counter row: read and collect counts are
not negative and the like count is at least `-k`. -/
def CountersFrom (k : Nat) (t : Tables) : Prop :=
  ∀ r ∈ t.interactives, 0 ≤ r.ReadCnt ∧ 0 ≤ r.CollectCnt ∧ -(k : Int) ≤ r.LikeCnt

end dao

namespace repository

variable {σ κ : Type}

/-- Where one call of `CachedInteractiveRepository.IncrReadCnt` stands:
before its store write, between the store write and the cache call, or
returned with its `error`. -/
inductive CallState where
  | start
  | stored
  | returned (err : Option Error)
  deriving DecidableEq, Repr

/-- Whether the call has done its store write. -/
def CallState.hasWritten : CallState → Bool
  | CallState.start => false
  | _ => true

/-- Whether the call has returned. -/
def CallState.hasReturned : CallState → Bool
  | CallState.returned _ => true
  | _ => false

/-- The next atomic action of one call of `IncrReadCnt`: the store write
`c.dao.IncrReadCnt` (one upsert statement), then the cache call
`c.cache.IncrReadCntIfPresent`. -/
def IncrReadCnt.step (D : dao.InteractiveDAO σ) (C : cache.InteractiveCache κ)
    (biz : String) (bizId : Int) (c : CachedInteractiveRepository σ κ) :
    CallState → CallState × CachedInteractiveRepository σ κ
  | CallState.start =>
    let r := D.IncrReadCnt c.dao biz bizId
    match r.1 with
    | some err => (CallState.returned (some err), { c with dao := r.2 })
    | none => (CallState.stored, { c with dao := r.2 })
  | CallState.stored =>
    let k := C.IncrReadCntIfPresent c.cache biz bizId
    (CallState.returned k.1, { c with cache := k.2 })
  | CallState.returned err => (CallState.returned err, c)

/-- Concurrent calls of `IncrReadCnt` on one repository: the shared state and
the state of each call. -/
structure Calls (σ κ : Type) where
  repo : CachedInteractiveRepository σ κ
  calls : List CallState

/-- The initial state of `n` calls, none started. -/
def Calls.init (c : CachedInteractiveRepository σ κ) (n : Nat) : Calls σ κ :=
  ⟨c, List.replicate n CallState.start⟩

/-- The scheduler lets call `i` do its next atomic action. -/
def Calls.step (D : dao.InteractiveDAO σ) (C : cache.InteractiveCache κ)
    (biz : String) (bizId : Int) (s : Calls σ κ) (i : Nat) : Calls σ κ :=
  match s.calls.get? i with
  | none => s
  | some st =>
    let r := IncrReadCnt.step D C biz bizId s.repo st
    { repo := r.2, calls := s.calls.set i r.1 }

/-- An interleaving: the calls act in the order of `schedule`. -/
def Calls.run (D : dao.InteractiveDAO σ) (C : cache.InteractiveCache κ)
    (biz : String) (bizId : Int) (s : Calls σ κ) (schedule : List Nat) : Calls σ κ :=
  schedule.foldl (Calls.step D C biz bizId) s

end repository

end webook

namespace webook

/-! ## Lemmas on the engine model -/

namespace dao

theorem filter_map_update {α : Type} (same : α → Bool) (upd : α → α)
    (h : ∀ r, same (upd r) = same r) (rows : List α) :
    (rows.map (fun r => if same r then upd r else r)).filter same
      = (rows.filter same).map upd := by
  induction rows with
  | nil => rfl
  | cons r rs ih =>
    by_cases hr : same r = true
    · simp [List.filter_cons, hr, h, ih]
    · simp [List.filter_cons, hr, ih]

theorem filter_other_map_update {α : Type} (same other : α → Bool) (upd : α → α)
    (h : ∀ r, other (upd r) = other r) (hd : ∀ r, same r = true → other r = false)
    (rows : List α) :
    (rows.map (fun r => if same r then upd r else r)).filter other
      = rows.filter other := by
  induction rows with
  | nil => rfl
  | cons r rs ih =>
    by_cases hr : same r = true
    · simp [List.filter_cons, hr, h, hd r hr, ih]
    · simp [List.filter_cons, hr, ih]

theorem any_eq_false_iff_filter {α : Type} (p : α → Bool) (rows : List α) :
    rows.any p = false ↔ rows.filter p = [] := by
  induction rows with
  | nil => simp
  | cons r rs ih =>
    by_cases hr : p r = true
    · simp [List.filter_cons, hr]
    · simp [List.filter_cons, hr, ih]

theorem exec_ok (g : GORMInteractiveDAO) (stmt : Tables → Except Error Tables) (t : Tables)
    (h : NextOk g) (hs : stmt g.db = .ok t) :
    exec g stmt = (none, { g with db := t, faults := g.faults.tail }) := by
  unfold NextOk at h
  unfold exec
  rw [h]
  dsimp only
  rw [hs]

end dao

end webook

namespace webook
namespace dao

theorem FaultFree.nextOk {g : GORMInteractiveDAO} (h : FaultFree g) : NextOk g := by
  unfold NextOk
  unfold FaultFree at h
  rcases hg : g.faults with _ | ⟨f, fs⟩
  · rfl
  · rw [hg] at h
    simpa using h f (by simp)

theorem FaultFree.of_tail {g g2 : GORMInteractiveDAO} (h : FaultFree g)
    (hf : g2.faults = g.faults.tail) : FaultFree g2 := by
  unfold FaultFree at *
  rw [hf]
  intro f hmem
  exact h f (List.mem_of_mem_tail hmem)

theorem exec_faults (g : GORMInteractiveDAO) (stmt : Tables → Except Error Tables) :
    (exec g stmt).2.faults = g.faults.tail := by
  unfold exec
  split
  · rfl
  · split <;> rfl

theorem exec_clock (g : GORMInteractiveDAO) (stmt : Tables → Except Error Tables) :
    (exec g stmt).2.clock = g.clock := by
  unfold exec
  split
  · rfl
  · split <;> rfl

/-- A statement either leaves the tables alone or replaces them by its
result. -/
theorem exec_db (g : GORMInteractiveDAO) (stmt : Tables → Except Error Tables) :
    (exec g stmt).2.db = g.db ∨ stmt g.db = .ok (exec g stmt).2.db := by
  unfold exec
  split
  · exact Or.inl rfl
  · split
    · next h => exact Or.inr h
    · exact Or.inl rfl

/-- A transaction either leaves the tables alone or commits the tables its
body produced. -/
theorem runTransaction_db {ρ : Type} (ok : ρ → Bool) (failed : Error → ρ)
    (g : GORMInteractiveDAO) (fc : GORMInteractiveDAO → ρ × GORMInteractiveDAO) :
    (runTransaction ok failed g fc).2.db = g.db ∨
    (runTransaction ok failed g fc).2.db = (fc { g with faults := g.faults.tail }).2.db := by
  unfold runTransaction
  split
  · exact Or.inl rfl
  · dsimp only
    split
    · split
      · exact Or.inl rfl
      · exact Or.inr rfl
    · exact Or.inl rfl

/-- A transaction whose result is not a success has rolled back. -/
theorem runTransaction_rollback {ρ : Type} (ok : ρ → Bool) (failed : Error → ρ)
    (g : GORMInteractiveDAO) (fc : GORMInteractiveDAO → ρ × GORMInteractiveDAO)
    (h : ok (runTransaction ok failed g fc).1 = false) :
    (runTransaction ok failed g fc).2.db = g.db := by
  unfold runTransaction at h ⊢
  rcases hb : g.faults.headD none with _ | e
  · rw [hb] at h
    dsimp only at h ⊢
    by_cases hok : ok (fc { g with faults := g.faults.tail }).1 = true
    · rw [if_pos hok] at h ⊢
      rcases hcm : (fc { g with faults := g.faults.tail }).2.faults.headD none with _ | e
      · rw [hcm] at h
        dsimp only at h
        rw [hok] at h
        exact absurd h (by simp)
      · rfl
    · rw [if_neg hok]
  · rfl

theorem Transaction_ok (g : GORMInteractiveDAO)
    (fc : GORMInteractiveDAO → Option Error × GORMInteractiveDAO)
    (h : NextOk g) (hfc : (fc { g with faults := g.faults.tail }).1 = none)
    (hc : NextOk (fc { g with faults := g.faults.tail }).2) :
    Transaction g fc = (none, { (fc { g with faults := g.faults.tail }).2 with
      faults := (fc { g with faults := g.faults.tail }).2.faults.tail }) := by
  unfold NextOk at h hc
  unfold Transaction runTransaction
  rw [h]
  dsimp only
  rw [hfc, hc]
  rfl

end dao
end webook

namespace webook
namespace dao

theorem IncrReadCnt_fst (g : GORMInteractiveDAO) (biz : String) (bizId : Int) :
    (IncrReadCnt g biz bizId).1 = g.faults.headD none := by
  unfold IncrReadCnt timeNow exec upsertInteractive
  dsimp only
  rcases h : g.faults.headD none with _ | e <;> rfl

theorem IncrReadCnt_faults (g : GORMInteractiveDAO) (biz : String) (bizId : Int) :
    (IncrReadCnt g biz bizId).2.faults = g.faults.tail := by
  unfold IncrReadCnt timeNow
  exact exec_faults _ _

/-- The loop returns the error of the first increment that the engine fails:
after `j` increments that run, the next one fails with `e`. -/
theorem batchLoop_fault (bizIds : List Int) (e : Error) (fs : List (Option Error)) :
    ∀ (rest : List String) (i j : Nat) (tx : GORMInteractiveDAO),
      tx.faults = List.replicate j none ++ some e :: fs →
      j < rest.length → i + rest.length ≤ bizIds.length →
      (batchLoop tx bizIds i rest).1 = Outcome.returned (some e) := by
  intro rest
  induction rest with
  | nil => intro i j tx _ hj; simp at hj
  | cons biz rest ih =>
    intro i j tx hf hj hlen
    have hi : i < bizIds.length := by simp at hlen; omega
    obtain ⟨bizId, hb⟩ : ∃ b, bizIds.get? i = some b := ⟨_, List.get?_eq_get hi⟩
    unfold batchLoop
    rw [hb]
    dsimp only
    cases j with
    | zero =>
      have h1 : (IncrReadCnt tx biz bizId).1 = some e := by
        rw [IncrReadCnt_fst, hf]; rfl
      rw [h1]
    | succ j =>
      have h1 : (IncrReadCnt tx biz bizId).1 = none := by
        rw [IncrReadCnt_fst, hf]; rfl
      rw [h1]
      dsimp only
      apply ih (i + 1) j
      · rw [IncrReadCnt_faults, hf]; rfl
      · simpa using hj
      · simp at hlen ⊢; omega

end dao
end webook

namespace webook
namespace dao

theorem filter_createOnConflict_absent {α : Type} (same : α → Bool) (upd : α → α)
    (fresh : α) (hfresh : same fresh = true) (rows : List α)
    (hnil : rows.filter same = []) :
    (createOnConflict same upd fresh rows).filter same = [fresh] := by
  unfold createOnConflict
  rw [(any_eq_false_iff_filter same rows).2 hnil]
  simp [hnil, hfresh]

theorem filter_createOnConflict_present {α : Type} (same : α → Bool) (upd : α → α)
    (fresh : α) (h : ∀ r, same (upd r) = same r) (rows : List α)
    (hne : rows.filter same ≠ []) :
    (createOnConflict same upd fresh rows).filter same = (rows.filter same).map upd := by
  unfold createOnConflict
  have hany : rows.any same = true := by
    by_contra hc
    exact hne ((any_eq_false_iff_filter same rows).1 (by simpa using hc))
  rw [if_pos hany]
  exact filter_map_update same upd h rows

theorem FaultFree.tail {g : GORMInteractiveDAO} (h : FaultFree g) :
    FaultFree { g with faults := g.faults.tail } :=
  h.of_tail rfl

/-- On an engine that runs the statement `IncrReadCnt` is the counter
upsert. -/
theorem IncrReadCnt_ok (g : GORMInteractiveDAO) (h : NextOk g) (biz : String) (bizId : Int) :
    IncrReadCnt g biz bizId = (none,
      { g with
        db := { g.db with interactives :=
          (createOnConflict (Interactive.conflicts bizId)
            (fun row => { row with ReadCnt := row.ReadCnt + 1, Utime := g.clock.headD 0 })
            ⟨nextId (g.db.interactives.map (·.Id)), bizId, biz, 1, 0, 0,
              g.clock.headD 0, g.clock.headD 0⟩ g.db.interactives) },
        faults := g.faults.tail, clock := g.clock.tail }) := by
  unfold IncrReadCnt timeNow
  exact exec_ok { g with clock := g.clock.tail } _ _ h rfl

end dao
end webook

namespace webook
namespace dao

theorem forall_createOnConflict {α : Type} (P : α → Prop) (same : α → Bool) (upd : α → α)
    (fresh : α) (hupd : ∀ r, P r → P (upd r)) (hfresh : P fresh) (rows : List α)
    (h : ∀ r ∈ rows, P r) : ∀ r ∈ createOnConflict same upd fresh rows, P r := by
  unfold createOnConflict
  split
  · intro r hr
    rw [List.mem_map] at hr
    obtain ⟨r0, hr0, rfl⟩ := hr
    split
    · exact hupd _ (h r0 hr0)
    · exact h r0 hr0
  · intro r hr
    rw [List.mem_append] at hr
    rcases hr with hr | hr
    · exact h r hr
    · rw [List.mem_singleton] at hr
      subst hr
      exact hfresh

theorem forall_updatesWhere {α : Type} (P Q : α → Prop) (cond : α → Bool) (upd : α → α)
    (hupd : ∀ r, P r → Q (upd r)) (hmono : ∀ r, P r → Q r) (rows : List α)
    (h : ∀ r ∈ rows, P r) : ∀ r ∈ updatesWhere cond upd rows, Q r := by
  unfold updatesWhere
  intro r hr
  rw [List.mem_map] at hr
  obtain ⟨r0, hr0, rfl⟩ := hr
  split
  · exact hupd _ (h r0 hr0)
  · exact hmono _ (h r0 hr0)

theorem CountersFrom.mono {k m : Nat} {t : Tables} (hkm : k ≤ m) (h : CountersFrom k t) :
    CountersFrom m t := by
  intro r hr
  obtain ⟨h1, h2, h3⟩ := h r hr
  refine ⟨h1, h2, ?_⟩
  have : (k : Int) ≤ m := by exact_mod_cast hkm
  omega

/-- A statement keeps a property of the tables that its result keeps. -/
theorem exec_inv (P : Tables → Prop) (g : GORMInteractiveDAO)
    (stmt : Tables → Except Error Tables) (h0 : P g.db)
    (h : ∀ t, stmt g.db = .ok t → P t) : P (exec g stmt).2.db := by
  rcases exec_db g stmt with he | he
  · rw [he]; exact h0
  · exact h _ he

/-- A transaction keeps a property of the tables that its body keeps. -/
theorem runTransaction_inv {ρ : Type} (P : Tables → Prop) (ok : ρ → Bool)
    (failed : Error → ρ) (g : GORMInteractiveDAO)
    (fc : GORMInteractiveDAO → ρ × GORMInteractiveDAO) (h0 : P g.db)
    (h : ∀ tx, tx.db = g.db → P (fc tx).2.db) :
    P (runTransaction ok failed g fc).2.db := by
  rcases runTransaction_db ok failed g fc with he | he
  · rw [he]; exact h0
  · rw [he]; exact h _ rfl

theorem upsertInteractive_inv (k : Nat) (fresh : Interactive)
    (upd : Interactive → Interactive)
    (hfresh : 0 ≤ fresh.ReadCnt ∧ 0 ≤ fresh.CollectCnt ∧ -(k : Int) ≤ fresh.LikeCnt)
    (hupd : ∀ r : Interactive, (0 ≤ r.ReadCnt ∧ 0 ≤ r.CollectCnt ∧ -(k : Int) ≤ r.LikeCnt) →
      (0 ≤ (upd r).ReadCnt ∧ 0 ≤ (upd r).CollectCnt ∧ -(k : Int) ≤ (upd r).LikeCnt))
    (t t2 : Tables) (h0 : CountersFrom k t) (h : upsertInteractive fresh upd t = .ok t2) :
    CountersFrom k t2 := by
  unfold upsertInteractive at h
  injection h with h
  subst h
  exact forall_createOnConflict
    (fun r : Interactive => 0 ≤ r.ReadCnt ∧ 0 ≤ r.CollectCnt ∧ -(k : Int) ≤ r.LikeCnt)
    _ upd { fresh with Id := nextId (t.interactives.map (·.Id)) } hupd hfresh _ h0

theorem IncrReadCnt_inv (k : Nat) (g : GORMInteractiveDAO) (biz : String) (bizId : Int)
    (h0 : CountersFrom k g.db) : CountersFrom k (IncrReadCnt g biz bizId).2.db := by
  show CountersFrom k (exec _ _).2.db
  refine exec_inv (CountersFrom k) _ _ h0 ?_
  intro t ht
  refine upsertInteractive_inv k _ _ ?_ ?_ _ _ h0 ht
  · refine ⟨?_, ?_, ?_⟩ <;> dsimp only <;> omega
  · intro r hr
    dsimp only
    omega

theorem batchLoop_inv (k : Nat) (bizIds : List Int) :
    ∀ (rest : List String) (i : Nat) (tx : GORMInteractiveDAO),
      CountersFrom k tx.db → CountersFrom k (batchLoop tx bizIds i rest).2.db := by
  intro rest
  induction rest with
  | nil => intro i tx h; exact h
  | cons biz rest ih =>
    intro i tx h
    unfold batchLoop
    split
    · exact h
    · next bizId _ =>
      dsimp only
      split
      · exact IncrReadCnt_inv k tx biz bizId h
      · exact ih _ _ (IncrReadCnt_inv k tx biz bizId h)

theorem BatchIncrReadCnt_inv (k : Nat) (g : GORMInteractiveDAO) (bizs : List String)
    (bizIds : List Int) (h0 : CountersFrom k g.db) :
    CountersFrom k (BatchIncrReadCnt g bizs bizIds).2.db := by
  show CountersFrom k (runTransaction _ _ _ _).2.db
  refine runTransaction_inv (CountersFrom k) _ _ _ _ h0 ?_
  intro tx htx
  exact batchLoop_inv k bizIds bizs 0 tx (by rw [htx]; exact h0)

theorem InsertLikeInfo_inv (k : Nat) (g : GORMInteractiveDAO) (biz : String)
    (bizId uid : Int) (h0 : CountersFrom k g.db) :
    CountersFrom k (InsertLikeInfo g biz bizId uid).2.db := by
  show CountersFrom k (runTransaction _ _ _ _).2.db
  refine runTransaction_inv (CountersFrom k) _ _ _ _ h0 ?_
  intro tx htx
  have h1 : CountersFrom k tx.db := by rw [htx]; exact h0
  dsimp only
  have hfirst : ∀ stmt : Tables → Except Error Tables,
      (∀ t t2, stmt t = .ok t2 → t2.interactives = t.interactives) →
      CountersFrom k (exec tx stmt).2.db := by
    intro stmt hs
    apply exec_inv (CountersFrom k) _ _ h1
    intro t ht r hr
    rw [hs _ _ ht] at hr
    exact h1 r hr
  split
  · apply hfirst
    intro t t2 ht
    injection ht with ht
    subst ht
    rfl
  · apply exec_inv (CountersFrom k)
    · apply hfirst
      intro t t2 ht
      injection ht with ht
      subst ht
      rfl
    · intro t ht
      refine upsertInteractive_inv k _ _ ?_ ?_ _ _ ?_ ht
      · refine ⟨?_, ?_, ?_⟩ <;> dsimp only <;> omega
      · intro r hr
        dsimp only
        omega
      · apply hfirst
        intro t t2 ht
        injection ht with ht
        subst ht
        rfl

theorem InsertCollectionBiz_inv (k : Nat) (g : GORMInteractiveDAO) (biz : String)
    (bizId cid uid : Int) (h0 : CountersFrom k g.db) :
    CountersFrom k (InsertCollectionBiz g biz bizId cid uid).2.db := by
  show CountersFrom k (runTransaction _ _ _ _).2.db
  refine runTransaction_inv (CountersFrom k) _ _ _ _ h0 ?_
  intro tx htx
  have h1 : CountersFrom k tx.db := by rw [htx]; exact h0
  dsimp only
  have hfirst : ∀ stmt : Tables → Except Error Tables,
      (∀ t t2, stmt t = .ok t2 → t2.interactives = t.interactives) →
      CountersFrom k (exec tx stmt).2.db := by
    intro stmt hs
    apply exec_inv (CountersFrom k) _ _ h1
    intro t ht r hr
    rw [hs _ _ ht] at hr
    exact h1 r hr
  have hstmt : ∀ t t2 : Tables,
      (if t.userCollectionBizs.any (UserCollectionBiz.conflicts uid bizId) then
        (.error Error.ErrDuplicatedKey : Except Error Tables)
      else
        .ok { t with userCollectionBizs := (t.userCollectionBizs ++
          [⟨nextId (t.userCollectionBizs.map (·.Id)), uid, bizId, biz, cid,
            g.clock.headD 0, g.clock.headD 0⟩]) }) = .ok t2 →
      t2.interactives = t.interactives := by
    intro t t2 ht
    split at ht
    · cases ht
    · injection ht with ht
      subst ht
      rfl
  split
  · exact hfirst _ hstmt
  · apply exec_inv (CountersFrom k)
    · exact hfirst _ hstmt
    · intro t ht
      refine upsertInteractive_inv k _ _ ?_ ?_ _ _ ?_ ht
      · refine ⟨?_, ?_, ?_⟩ <;> dsimp only <;> omega
      · intro r hr
        dsimp only
        omega
      · exact hfirst _ hstmt

theorem DeleteLikeInfo_inv (k : Nat) (g : GORMInteractiveDAO) (biz : String)
    (bizId uid : Int) (h0 : CountersFrom k g.db) :
    CountersFrom (k + 1) (DeleteLikeInfo g biz bizId uid).2.db := by
  show CountersFrom (k + 1) (runTransaction _ _ _ _).2.db
  refine runTransaction_inv (CountersFrom (k + 1)) _ _ _ _ (h0.mono (by omega)) ?_
  intro tx htx
  have h1 : CountersFrom k tx.db := by rw [htx]; exact h0
  dsimp only
  have hfirst : ∀ stmt : Tables → Except Error Tables,
      (∀ t t2, stmt t = .ok t2 → t2.interactives = t.interactives) →
      CountersFrom k (exec tx stmt).2.db := by
    intro stmt hs
    apply exec_inv (CountersFrom k) _ _ h1
    intro t ht r hr
    rw [hs _ _ ht] at hr
    exact h1 r hr
  have hstmt : ∀ t t2 : Tables,
      (.ok { t with userLikeBizs :=
        (updatesWhere (UserLikeBiz.matches uid biz bizId)
          (fun row => { row with Utime := g.clock.headD 0, Status := 0 }) t.userLikeBizs) } :
        Except Error Tables) = .ok t2 →
      t2.interactives = t.interactives := by
    intro t t2 ht
    injection ht with ht
    subst ht
    rfl
  split
  · exact (hfirst _ hstmt).mono (by omega)
  · apply exec_inv (CountersFrom (k + 1))
    · exact (hfirst _ hstmt).mono (by omega)
    · intro t ht
      injection ht with ht
      subst ht
      refine forall_updatesWhere
        (fun r : Interactive => 0 ≤ r.ReadCnt ∧ 0 ≤ r.CollectCnt ∧ -(k : Int) ≤ r.LikeCnt)
        (fun r : Interactive =>
          0 ≤ r.ReadCnt ∧ 0 ≤ r.CollectCnt ∧ -((k + 1 : Nat) : Int) ≤ r.LikeCnt)
        _ _ ?_ ?_ _ (hfirst _ hstmt)
      · intro r hr
        dsimp only
        push_cast
        omega
      · intro r hr
        push_cast
        omega

theorem WriteOp.apply_inv (k : Nat) (g : GORMInteractiveDAO) (op : WriteOp)
    (h0 : CountersFrom k g.db) :
    CountersFrom (k + (if op.isDelete then 1 else 0)) (op.apply g).db := by
  cases op with
  | IncrReadCnt biz bizId => exact IncrReadCnt_inv k g biz bizId h0
  | BatchIncrReadCnt bizs bizIds => exact BatchIncrReadCnt_inv k g bizs bizIds h0
  | InsertLikeInfo biz bizId uid => exact InsertLikeInfo_inv k g biz bizId uid h0
  | DeleteLikeInfo biz bizId uid => exact DeleteLikeInfo_inv k g biz bizId uid h0
  | InsertCollectionBiz biz bizId cid uid =>
    exact InsertCollectionBiz_inv k g biz bizId cid uid h0

theorem runOps_inv (ops : List WriteOp) :
    ∀ (k : Nat) (g : GORMInteractiveDAO), CountersFrom k g.db →
      CountersFrom (k + ops.countP WriteOp.isDelete) (runOps g ops).db := by
  induction ops with
  | nil => intro k g h; simpa [runOps] using h
  | cons op ops ih =>
    intro k g h
    have h1 := WriteOp.apply_inv k g op h
    have h2 := ih _ _ h1
    have hrun : runOps g (op :: ops) = runOps (op.apply g) ops := rfl
    rw [hrun]
    refine h2.mono ?_
    rw [List.countP_cons]
    omega

end dao
end webook

namespace webook

namespace dao

theorem IncrReadCnt_counted (g : GORMInteractiveDAO) (h : NextOk g) (biz : String)
    (bizId : Int) (m : Nat) (hc : CountedRow biz bizId m g.db) :
    CountedRow biz bizId (m + 1) (IncrReadCnt g biz bizId).2.db := by
  rw [IncrReadCnt_ok g h]
  refine ⟨fun h0 => absurd h0 (by omega), fun _ => ?_⟩
  dsimp only
  rcases Nat.eq_zero_or_pos m with hm | hm
  · rw [filter_createOnConflict_absent]
    · exact ⟨_, rfl, rfl, by simp [hm], rfl, rfl⟩
    · simp [Interactive.conflicts]
    · exact hc.1 hm
  · obtain ⟨r, hr, hb, h1, h2, h3⟩ := hc.2 hm
    rw [filter_createOnConflict_present]
    · rw [hr]
      refine ⟨_, rfl, hb, ?_, h2, h3⟩
      dsimp only
      rw [h1]
      push_cast
      rfl
    · intro r; rfl
    · rw [hr]; simp

end dao

namespace repository

theorem countP_set {α : Type} (p : α → Bool) (a : α) :
    ∀ (l : List α) (i : Nat) (old : α), l.get? i = some old →
      (l.set i a).countP p + (if p old then 1 else 0)
        = l.countP p + (if p a then 1 else 0) := by
  intro l
  induction l with
  | nil => intro i old h; simp at h
  | cons x xs ih =>
    intro i old h
    cases i with
    | zero =>
      simp at h
      subst h
      simp only [List.set_cons_zero, List.countP_cons]
      omega
    | succ i =>
      simp at h
      have := ih i old (by simpa using h)
      simp only [List.set_cons_succ, List.countP_cons]
      omega

/-- One scheduled action keeps the engine fault free, the number of calls,
and the counter row in step with the number of calls that have done their
store write. -/
theorem Calls.step_inv {κ : Type} (C : cache.InteractiveCache κ) (biz : String)
    (bizId : Int) (s : Calls dao.GORMInteractiveDAO κ) (i : Nat)
    (hf : dao.FaultFree s.repo.dao)
    (hc : dao.CountedRow biz bizId (s.calls.countP CallState.hasWritten) s.repo.dao.db) :
    dao.FaultFree (Calls.step dao.gorm C biz bizId s i).repo.dao ∧
    dao.CountedRow biz bizId
      ((Calls.step dao.gorm C biz bizId s i).calls.countP CallState.hasWritten)
      (Calls.step dao.gorm C biz bizId s i).repo.dao.db ∧
    (Calls.step dao.gorm C biz bizId s i).calls.length = s.calls.length := by
  unfold Calls.step
  rcases hi : s.calls.get? i with _ | st
  · exact ⟨hf, hc, rfl⟩
  · dsimp only
    have hcount := fun a => countP_set CallState.hasWritten a s.calls i st hi
    cases st with
    | start =>
      have hok : (dao.gorm.IncrReadCnt s.repo.dao biz bizId).1 = none := by
        show (dao.IncrReadCnt s.repo.dao biz bizId).1 = none
        rw [dao.IncrReadCnt_ok _ hf.nextOk]
      have hstep : IncrReadCnt.step dao.gorm C biz bizId s.repo CallState.start
          = (CallState.stored,
              { s.repo with dao := (dao.IncrReadCnt s.repo.dao biz bizId).2 }) := by
        unfold IncrReadCnt.step
        dsimp only
        rw [hok]
        rfl
      rw [hstep]
      dsimp only
      have h1 := hcount CallState.stored
      simp only [CallState.hasWritten] at h1
      have h2 : (s.calls.set i CallState.stored).countP CallState.hasWritten
          = s.calls.countP CallState.hasWritten + 1 := by simpa using h1
      refine ⟨?_, ?_, by simp⟩
      · exact hf.of_tail (dao.IncrReadCnt_faults _ _ _)
      · rw [h2]
        exact dao.IncrReadCnt_counted _ hf.nextOk _ _ _ hc
    | stored =>
      have h1 := hcount (CallState.returned (C.IncrReadCntIfPresent s.repo.cache biz bizId).1)
      simp only [CallState.hasWritten] at h1
      have h2 : (s.calls.set i
          (CallState.returned (C.IncrReadCntIfPresent s.repo.cache biz bizId).1)).countP
            CallState.hasWritten = s.calls.countP CallState.hasWritten := by simpa using h1
      refine ⟨hf, ?_, by simp [IncrReadCnt.step]⟩
      simp only [IncrReadCnt.step]
      rw [h2]
      exact hc
    | returned err =>
      have h1 := hcount (CallState.returned err)
      simp only [CallState.hasWritten] at h1
      have h2 : (s.calls.set i (CallState.returned err)).countP CallState.hasWritten
          = s.calls.countP CallState.hasWritten := by simpa using h1
      refine ⟨hf, ?_, by simp [IncrReadCnt.step]⟩
      simp only [IncrReadCnt.step]
      rw [h2]
      exact hc

theorem Calls.run_inv {κ : Type} (C : cache.InteractiveCache κ) (biz : String)
    (bizId : Int) (schedule : List Nat) :
    ∀ s : Calls dao.GORMInteractiveDAO κ, dao.FaultFree s.repo.dao →
      dao.CountedRow biz bizId (s.calls.countP CallState.hasWritten) s.repo.dao.db →
      dao.CountedRow biz bizId
        ((Calls.run dao.gorm C biz bizId s schedule).calls.countP CallState.hasWritten)
        (Calls.run dao.gorm C biz bizId s schedule).repo.dao.db ∧
      (Calls.run dao.gorm C biz bizId s schedule).calls.length = s.calls.length := by
  induction schedule with
  | nil => intro s _ hc; exact ⟨hc, rfl⟩
  | cons i rest ih =>
    intro s hf hc
    obtain ⟨h1, h2, h3⟩ := Calls.step_inv C biz bizId s i hf hc
    have := ih _ h1 h2
    have hrun : Calls.run dao.gorm C biz bizId s (i :: rest)
        = Calls.run dao.gorm C biz bizId (Calls.step dao.gorm C biz bizId s i) rest := rfl
    rw [hrun]
    exact ⟨this.1, this.2.trans h3⟩

/-- The sequential `IncrReadCnt` is its two atomic actions in a row. -/
theorem IncrReadCnt_eq_steps {σ κ : Type} (D : dao.InteractiveDAO σ)
    (C : cache.InteractiveCache κ) (c : CachedInteractiveRepository σ κ) (biz : String)
    (bizId : Int) :
    IncrReadCnt.step D C biz bizId (IncrReadCnt.step D C biz bizId c CallState.start).2
        (IncrReadCnt.step D C biz bizId c CallState.start).1
      = (CallState.returned (IncrReadCnt D C c biz bizId).1, (IncrReadCnt D C c biz bizId).2) := by
  unfold IncrReadCnt
  rcases h : (D.IncrReadCnt c.dao biz bizId).1 with _ | e <;>
    simp [IncrReadCnt.step, h]

end repository
end webook

namespace webook

/-- C10 (as stated, refuted): from the empty store, `IncrReadCnt` creates the
counter row of `("article", 1)` and `DeleteLikeInfo` on it then leaves its
`LikeCnt` at `-1`. -/
theorem C10_likeCount_negative :
    (dao.runOps ⟨dao.Tables.empty, [], []⟩
      [dao.WriteOp.IncrReadCnt "article" 1,
       dao.WriteOp.DeleteLikeInfo "article" 1 5]).db.interactives.map
        (fun r => (r.ReadCnt, r.LikeCnt, r.CollectCnt)) = [(1, -1, 0)] := by
  decide

/-- C10 (amended): in every store state reached from the empty store by a
sequence of write operations, under any engine faults and clock, every
counter row has `ReadCnt ≥ 0` and `CollectCnt ≥ 0`, and its `LikeCnt` is an
integer not below minus the number of `DeleteLikeInfo` operations of the
sequence. -/
theorem C10_counter_bounds (faults : List (Option Error)) (clock : List Int)
    (ops : List dao.WriteOp) (r : dao.Interactive)
    (hr : r ∈ (dao.runOps ⟨dao.Tables.empty, faults, clock⟩ ops).db.interactives) :
    0 ≤ r.ReadCnt ∧ 0 ≤ r.CollectCnt ∧
    -((ops.countP dao.WriteOp.isDelete : Nat) : Int) ≤ r.LikeCnt := by
  have h := dao.runOps_inv ops 0 ⟨dao.Tables.empty, faults, clock⟩
    (by intro r hr; simp [dao.Tables.empty] at hr)
  rw [Nat.zero_add] at h
  exact h r hr

/-- Witness of C10 (amended): the row reached by an increment and a retracted
like. -/
theorem C10_counter_bounds_witness :
    (⟨1, 1, "article", 1, -1, 0, 0, 0⟩ : dao.Interactive) ∈
      (dao.runOps ⟨dao.Tables.empty, [], []⟩
        [dao.WriteOp.IncrReadCnt "article" 1,
         dao.WriteOp.DeleteLikeInfo "article" 1 5]).db.interactives ∧
    (0 : Int) ≤ 1 ∧ (0 : Int) ≤ 0 ∧ -((1 : Nat) : Int) ≤ -1 :=
  ⟨by decide,
    C10_counter_bounds [] []
      [dao.WriteOp.IncrReadCnt "article" 1, dao.WriteOp.DeleteLikeInfo "article" 1 5]
      ⟨1, 1, "article", 1, -1, 0, 0, 0⟩ (by decide)⟩

end webook

namespace webook

/-- What the upsert of `IncrReadCnt` does, keyed as the code keys it (by the
unique index, so by `biz_id`).  On an engine that runs the statement the call
returns no error; the mark tables and the counter rows of every other
`biz_id` are unchanged; if no counter row of `bizId` existed there is
afterwards exactly one, of `(biz, bizId)`, with `ReadCnt = 1`, `LikeCnt = 0`,
`CollectCnt = 0`; if rows of `bizId` existed, under whatever `biz`, each has
`ReadCnt` grown by exactly one, the update time refreshed and every other
column unchanged, and no row is created. -/
theorem IncrReadCnt_effect_on_index (g : dao.GORMInteractiveDAO) (biz : String)
    (bizId : Int) (h : dao.NextOk g) :
    (dao.IncrReadCnt g biz bizId).1 = none ∧
    (dao.IncrReadCnt g biz bizId).2.db.userLikeBizs = g.db.userLikeBizs ∧
    (dao.IncrReadCnt g biz bizId).2.db.userCollectionBizs = g.db.userCollectionBizs ∧
    (dao.IncrReadCnt g biz bizId).2.db.interactives.filter
        (fun r => !dao.Interactive.conflicts bizId r)
      = g.db.interactives.filter (fun r => !dao.Interactive.conflicts bizId r) ∧
    (g.db.interactives.filter (dao.Interactive.conflicts bizId) = [] →
      ∃ r, (dao.IncrReadCnt g biz bizId).2.db.interactives.filter
            (dao.Interactive.conflicts bizId) = [r] ∧
        r.BizId = bizId ∧ r.Biz = biz ∧
        r.ReadCnt = 1 ∧ r.LikeCnt = 0 ∧ r.CollectCnt = 0) ∧
    (g.db.interactives.filter (dao.Interactive.conflicts bizId) ≠ [] →
      (dao.IncrReadCnt g biz bizId).2.db.interactives.filter (dao.Interactive.conflicts bizId)
        = (g.db.interactives.filter (dao.Interactive.conflicts bizId)).map
            (fun r => { r with ReadCnt := r.ReadCnt + 1, Utime := g.clock.headD 0 })) := by
  have heq := dao.IncrReadCnt_ok g h biz bizId
  rw [heq]
  refine ⟨rfl, rfl, rfl, ?_, ?_, ?_⟩
  · show (dao.createOnConflict _ _ _ _).filter _ = _
    unfold dao.createOnConflict
    split
    · exact dao.filter_other_map_update (dao.Interactive.conflicts bizId)
        (fun r => !dao.Interactive.conflicts bizId r)
        (fun row => { row with ReadCnt := row.ReadCnt + 1, Utime := g.clock.headD 0 })
        (fun r => rfl) (fun r hr => by simp [hr]) _
    · simp [dao.Interactive.conflicts]
  · intro hnone
    have hany := (dao.any_eq_false_iff_filter _ _).2 hnone
    refine ⟨⟨dao.nextId (g.db.interactives.map (·.Id)), bizId, biz, 1, 0, 0,
              g.clock.headD 0, g.clock.headD 0⟩, ?_, rfl, rfl, rfl, rfl, rfl⟩
    show (dao.createOnConflict _ _ _ _).filter _ = _
    unfold dao.createOnConflict
    simp [hany, hnone, dao.Interactive.conflicts]
  · intro hsome
    have hany : g.db.interactives.any (dao.Interactive.conflicts bizId) = true := by
      by_contra hc
      exact hsome ((dao.any_eq_false_iff_filter _ _).1 (by simpa using hc))
    show (dao.createOnConflict _ _ _ _).filter _ = _
    unfold dao.createOnConflict
    rw [if_pos hany]
    exact dao.filter_map_update (dao.Interactive.conflicts bizId)
      (fun row => { row with ReadCnt := row.ReadCnt + 1, Utime := g.clock.headD 0 })
      (fun r => rfl) _

/-- C1 (the code at the failing input): the store holds the counter row of
`("article", 1)` with `ReadCnt = 4` and no row of `("video", 1)`.  The call
`IncrReadCnt("video", 1)` returns no error, raises the `ReadCnt` of the row of
`("article", 1)` to `5` and creates no row: afterwards the table is that one
row, there is still no row of `("video", 1)`, and `Get("video", 1)` answers
`ErrRecordNotFound`. -/
theorem C1_IncrReadCnt_other_biz_same_id :
    (dao.NextOk ⟨⟨[⟨1, 1, "article", 4, 0, 0, 0, 0⟩], [], []⟩, [], [100]⟩ ∧
      (⟨[⟨1, 1, "article", 4, 0, 0, 0, 0⟩], [], []⟩ : dao.Tables).interactives.filter
        (dao.Interactive.matches "video" 1) = []) ∧
    (dao.IncrReadCnt ⟨⟨[⟨1, 1, "article", 4, 0, 0, 0, 0⟩], [], []⟩, [], [100]⟩
      "video" 1).1 = none ∧
    (dao.IncrReadCnt ⟨⟨[⟨1, 1, "article", 4, 0, 0, 0, 0⟩], [], []⟩, [], [100]⟩
      "video" 1).2.db.interactives = [⟨1, 1, "article", 5, 0, 0, 100, 0⟩] ∧
    (dao.IncrReadCnt ⟨⟨[⟨1, 1, "article", 4, 0, 0, 0, 0⟩], [], []⟩, [], [100]⟩
      "video" 1).2.db.interactives.filter (dao.Interactive.matches "video" 1) = [] ∧
    (dao.Get (dao.IncrReadCnt ⟨⟨[⟨1, 1, "article", 4, 0, 0, 0, 0⟩], [], []⟩, [], [100]⟩
      "video" 1).2 "video" 1).1.2 = some Error.ErrRecordNotFound := by
  decide

end webook

namespace webook

/-- Concurrent calls of the repository's `IncrReadCnt`, keyed as the code keys
the upsert (by `biz_id`).  On the GORM store with an engine that runs every
statement, a store with no counter row of `bizId` under any `biz`, and any
cache: each of the `N` calls is its store upsert followed by its cache call,
and a schedule interleaves these actions in any order.  After every schedule
the counter row counts exactly the calls that have done their store write; so
for every schedule after which all `N` calls have returned, the store holds
exactly one counter row of `bizId`, of `biz`, with `ReadCnt = N` (and
`LikeCnt = CollectCnt = 0`).  For `N = 0` there is no row. -/
theorem concurrent_IncrReadCnt_counts_on_index {κ : Type} (C : cache.InteractiveCache κ)
    (c : repository.CachedInteractiveRepository dao.GORMInteractiveDAO κ)
    (biz : String) (bizId : Int) (N : Nat) (schedule : List Nat)
    (hf : dao.FaultFree c.dao)
    (hnone : c.dao.db.interactives.filter (dao.Interactive.conflicts bizId) = []) :
    (repository.Calls.run dao.gorm C biz bizId
        (repository.Calls.init c N) schedule).calls.length = N ∧
    dao.CountedRow biz bizId
      ((repository.Calls.run dao.gorm C biz bizId
        (repository.Calls.init c N) schedule).calls.countP repository.CallState.hasWritten)
      (repository.Calls.run dao.gorm C biz bizId
        (repository.Calls.init c N) schedule).repo.dao.db ∧
    ((∀ st ∈ (repository.Calls.run dao.gorm C biz bizId
        (repository.Calls.init c N) schedule).calls, st.hasReturned = true) →
      (N = 0 →
        (repository.Calls.run dao.gorm C biz bizId
          (repository.Calls.init c N) schedule).repo.dao.db.interactives.filter
            (dao.Interactive.conflicts bizId) = []) ∧
      (0 < N →
        ∃ r, (repository.Calls.run dao.gorm C biz bizId
          (repository.Calls.init c N) schedule).repo.dao.db.interactives.filter
            (dao.Interactive.conflicts bizId) = [r] ∧
          r.Biz = biz ∧ r.ReadCnt = N ∧ r.LikeCnt = 0 ∧ r.CollectCnt = 0)) := by
  have h0 : (repository.Calls.init c N).calls.countP repository.CallState.hasWritten = 0 := by
    simp [repository.Calls.init, List.countP_replicate, repository.CallState.hasWritten]
  have hinv := repository.Calls.run_inv C biz bizId schedule (repository.Calls.init c N) hf
    (by rw [h0]; exact ⟨fun _ => hnone, fun h => absurd h (by omega)⟩)
  have hlen : (repository.Calls.run dao.gorm C biz bizId
      (repository.Calls.init c N) schedule).calls.length = N := by
    rw [hinv.2]; simp [repository.Calls.init]
  refine ⟨hlen, hinv.1, ?_⟩
  intro hdone
  have hall : (repository.Calls.run dao.gorm C biz bizId
      (repository.Calls.init c N) schedule).calls.countP repository.CallState.hasWritten
      = N := by
    refine Eq.trans (List.countP_eq_length.2 ?_) hlen
    intro st hst
    have hret := hdone st hst
    cases st with
    | start => exact absurd hret (by simp [repository.CallState.hasReturned])
    | stored => rfl
    | returned err => rfl
  have hrow := hinv.1
  rw [hall] at hrow
  exact ⟨hrow.1, hrow.2⟩

/-- C2 (the code at the failing input): the store holds the counter row of
`("article", 1)` with `ReadCnt = 4` and no row of `("video", 1)`.  Two
concurrent calls of the repository's `IncrReadCnt("video", 1)`, interleaved as
the store writes of calls 0 and 1 and then the cache calls of calls 1 and 0,
both return no error; afterwards the table is the row of `("article", 1)`
with `ReadCnt = 6` and there is no row of `("video", 1)`, whose read count
should be 2.  The two calls of `IncrReadCnt` one after the other leave the
same tables. -/
theorem C2_concurrent_IncrReadCnt_other_biz_same_id :
    (⟨[⟨1, 1, "article", 4, 0, 0, 0, 0⟩], [], []⟩ : dao.Tables).interactives.filter
      (dao.Interactive.matches "video" 1) = [] ∧
    (repository.Calls.run dao.gorm cache.mem "video" 1
      (repository.Calls.init
        ⟨⟨⟨[⟨1, 1, "article", 4, 0, 0, 0, 0⟩], [], []⟩, [], []⟩, ⟨[], []⟩, []⟩ 2)
      [0, 1, 1, 0]).calls
      = [repository.CallState.returned none, repository.CallState.returned none] ∧
    (repository.Calls.run dao.gorm cache.mem "video" 1
      (repository.Calls.init
        ⟨⟨⟨[⟨1, 1, "article", 4, 0, 0, 0, 0⟩], [], []⟩, [], []⟩, ⟨[], []⟩, []⟩ 2)
      [0, 1, 1, 0]).repo.dao.db.interactives = [⟨1, 1, "article", 6, 0, 0, 0, 0⟩] ∧
    (repository.Calls.run dao.gorm cache.mem "video" 1
      (repository.Calls.init
        ⟨⟨⟨[⟨1, 1, "article", 4, 0, 0, 0, 0⟩], [], []⟩, [], []⟩, ⟨[], []⟩, []⟩ 2)
      [0, 1, 1, 0]).repo.dao.db.interactives.filter
        (dao.Interactive.matches "video" 1) = [] ∧
    (repository.IncrReadCnt dao.gorm cache.mem
      (repository.IncrReadCnt dao.gorm cache.mem
        ⟨⟨⟨[⟨1, 1, "article", 4, 0, 0, 0, 0⟩], [], []⟩, [], []⟩, ⟨[], []⟩, []⟩
        "video" 1).2 "video" 1).1 = none ∧
    (repository.IncrReadCnt dao.gorm cache.mem
      (repository.IncrReadCnt dao.gorm cache.mem
        ⟨⟨⟨[⟨1, 1, "article", 4, 0, 0, 0, 0⟩], [], []⟩, [], []⟩, ⟨[], []⟩, []⟩
        "video" 1).2 "video" 1).2.dao.db.interactives
      = [⟨1, 1, "article", 6, 0, 0, 0, 0⟩] := by
  decide

end webook

namespace webook

open repository (CachedInteractiveRepository)

/-- C3 (as stated, refuted): on an empty store the store write of
`IncrReadCnt` succeeds, the cache call fails with error 7, and the repository
returns that cache error to its caller. -/
theorem C3_cache_error_is_returned :
    (dao.gorm.IncrReadCnt ⟨dao.Tables.empty, [], []⟩ "article" 1).1 = none ∧
    (repository.IncrReadCnt dao.gorm cache.mem
      ⟨⟨dao.Tables.empty, [], []⟩, ⟨[], [some (Error.other 7)]⟩, []⟩ "article" 1).1
      = some (Error.other 7) := by
  decide

/-- C3 (amended): for `IncrReadCnt`, `IncrLike`, `DecrLike` and
`AddCollectionItem`, over every store and cache implementation and every
input: if the store write returns no error, the operation returns exactly
what the cache's `IfPresent` call returns on the current cache, so no error
when that call succeeds and the cache's error when it fails. -/
theorem C3_write_returns_cache_result {σ κ : Type} (D : dao.InteractiveDAO σ)
    (C : cache.InteractiveCache κ) (c : CachedInteractiveRepository σ κ)
    (biz : String) (bizId cid uid : Int) :
    ((D.IncrReadCnt c.dao biz bizId).1 = none →
      (repository.IncrReadCnt D C c biz bizId).1
        = (C.IncrReadCntIfPresent c.cache biz bizId).1) ∧
    ((D.InsertLikeInfo c.dao biz bizId uid).1 = none →
      (repository.IncrLike D C c biz bizId uid).1
        = (C.IncrLikeCntIfPresent c.cache biz bizId).1) ∧
    ((D.DeleteLikeInfo c.dao biz bizId uid).1 = none →
      (repository.DecrLike D C c biz bizId uid).1
        = (C.DecrLikeCntIfPresent c.cache biz bizId).1) ∧
    ((D.InsertCollectionBiz c.dao biz bizId cid uid).1 = none →
      (repository.AddCollectionItem D C c biz bizId cid uid).1
        = (C.IncrCollectCntIfPresent c.cache biz bizId).1) := by
  refine ⟨?_, ?_, ?_, ?_⟩
  · intro h; simp [repository.IncrReadCnt, h]
  · intro h; simp [repository.IncrLike, h]
  · intro h; simp [repository.DecrLike, h]
  · intro h; simp [repository.AddCollectionItem, h]

/-- Witness of C3 (amended): the store write succeeds, the cache is
unreachable, and `IncrLike` returns the cache call's result. -/
theorem C3_write_returns_cache_result_witness :
    (dao.gorm.InsertLikeInfo ⟨dao.Tables.empty, [], []⟩ "article" 1 5).1 = none ∧
    (repository.IncrLike dao.gorm cache.mem
      ⟨⟨dao.Tables.empty, [], []⟩, ⟨[], [some (Error.other 7)]⟩, []⟩ "article" 1 5).1
      = (cache.mem.IncrLikeCntIfPresent ⟨[], [some (Error.other 7)]⟩ "article" 1).1 :=
  ⟨by decide,
    (C3_write_returns_cache_result dao.gorm cache.mem
      ⟨⟨dao.Tables.empty, [], []⟩, ⟨[], [some (Error.other 7)]⟩, []⟩ "article" 1 0 5).2.1
      (by decide)⟩

/-- C4: for `IncrReadCnt`, `BatchIncrReadCnt`, `IncrLike`, `DecrLike` and
`AddCollectionItem`, over every store and cache implementation and every
input: if the store write returns an error, the operation returns that same
error, the cache state is the one before the call, no goroutine is started,
and the whole result is the same whatever the cache implementation is (no
cache method is called). -/
theorem C4_store_error_aborts {σ κ : Type} (D : dao.InteractiveDAO σ)
    (C : cache.InteractiveCache κ) (c : CachedInteractiveRepository σ κ)
    (biz : String) (bizId cid uid : Int) (bizs : List String) (bizIds : List Int)
    (e : Error) :
    ((D.IncrReadCnt c.dao biz bizId).1 = some e →
      (repository.IncrReadCnt D C c biz bizId).1 = some e ∧
      (repository.IncrReadCnt D C c biz bizId).2.cache = c.cache ∧
      (repository.IncrReadCnt D C c biz bizId).2.spawned = c.spawned ∧
      ∀ C2 : cache.InteractiveCache κ,
        repository.IncrReadCnt D C2 c biz bizId = repository.IncrReadCnt D C c biz bizId) ∧
    ((D.BatchIncrReadCnt c.dao bizs bizIds).1 = dao.Outcome.returned (some e) →
      (repository.BatchIncrReadCnt D c bizs bizIds).1 = dao.Outcome.returned (some e) ∧
      (repository.BatchIncrReadCnt D c bizs bizIds).2.cache = c.cache ∧
      (repository.BatchIncrReadCnt D c bizs bizIds).2.spawned = c.spawned) ∧
    ((D.InsertLikeInfo c.dao biz bizId uid).1 = some e →
      (repository.IncrLike D C c biz bizId uid).1 = some e ∧
      (repository.IncrLike D C c biz bizId uid).2.cache = c.cache ∧
      (repository.IncrLike D C c biz bizId uid).2.spawned = c.spawned ∧
      ∀ C2 : cache.InteractiveCache κ,
        repository.IncrLike D C2 c biz bizId uid = repository.IncrLike D C c biz bizId uid) ∧
    ((D.DeleteLikeInfo c.dao biz bizId uid).1 = some e →
      (repository.DecrLike D C c biz bizId uid).1 = some e ∧
      (repository.DecrLike D C c biz bizId uid).2.cache = c.cache ∧
      (repository.DecrLike D C c biz bizId uid).2.spawned = c.spawned ∧
      ∀ C2 : cache.InteractiveCache κ,
        repository.DecrLike D C2 c biz bizId uid = repository.DecrLike D C c biz bizId uid) ∧
    ((D.InsertCollectionBiz c.dao biz bizId cid uid).1 = some e →
      (repository.AddCollectionItem D C c biz bizId cid uid).1 = some e ∧
      (repository.AddCollectionItem D C c biz bizId cid uid).2.cache = c.cache ∧
      (repository.AddCollectionItem D C c biz bizId cid uid).2.spawned = c.spawned ∧
      ∀ C2 : cache.InteractiveCache κ,
        repository.AddCollectionItem D C2 c biz bizId cid uid
          = repository.AddCollectionItem D C c biz bizId cid uid) := by
  refine ⟨?_, ?_, ?_, ?_, ?_⟩
  · intro h; simp [repository.IncrReadCnt, h]
  · intro h; simp [repository.BatchIncrReadCnt, h]
  · intro h; simp [repository.IncrLike, h]
  · intro h; simp [repository.DecrLike, h]
  · intro h; simp [repository.AddCollectionItem, h]

/-- Witness of C4: the second increment of a batch is made to fail; the
repository returns that error, leaves the cache alone and starts no
goroutine. -/
theorem C4_store_error_aborts_witness :
    (dao.gorm.BatchIncrReadCnt ⟨dao.Tables.empty, [none, none, some (Error.other 3)], []⟩
        ["article", "video"] [1, 2]).1 = dao.Outcome.returned (some (Error.other 3)) ∧
    (repository.BatchIncrReadCnt dao.gorm
      (⟨⟨dao.Tables.empty, [none, none, some (Error.other 3)], []⟩, ⟨[], []⟩, []⟩ :
        CachedInteractiveRepository dao.GORMInteractiveDAO cache.MemCache)
      ["article", "video"] [1, 2]).2.spawned = [] :=
  ⟨by decide,
    ((C4_store_error_aborts dao.gorm cache.mem
      ⟨⟨dao.Tables.empty, [none, none, some (Error.other 3)], []⟩, ⟨[], []⟩, []⟩
      "article" 1 0 0 ["article", "video"] [1, 2] (Error.other 3)).2.1 (by decide)).2.2⟩

/-- C5: the repository's `Get`, over every store and cache implementation.
On a cache hit it returns the cached snapshot with no error, leaves the store
state alone and gives the same result whatever the store implementation is
(the store is not read).  Otherwise (a miss or any cache error) it returns
the converted store row with no error when the store `Get` succeeds, and the
zero snapshot with the store's error when it fails.  The returned value and
error are the same whatever `Cache.Set` does. -/
theorem C5_Get_cache_aside {σ κ : Type} (D : dao.InteractiveDAO σ)
    (C : cache.InteractiveCache κ) (c : CachedInteractiveRepository σ κ)
    (biz : String) (bizId : Int) :
    ((C.Get c.cache biz bizId).1.2 = none →
      (repository.Get D C c biz bizId).1 = ((C.Get c.cache biz bizId).1.1, none) ∧
      (repository.Get D C c biz bizId).2.dao = c.dao ∧
      ∀ D2 : dao.InteractiveDAO σ,
        repository.Get D2 C c biz bizId = repository.Get D C c biz bizId) ∧
    ((C.Get c.cache biz bizId).1.2 ≠ none → (D.Get c.dao biz bizId).1.2 = none →
      (repository.Get D C c biz bizId).1.2 = none ∧
      (repository.Get D C c biz bizId).1.1.BizId = (D.Get c.dao biz bizId).1.1.BizId ∧
      (repository.Get D C c biz bizId).1.1.ReadCnt = (D.Get c.dao biz bizId).1.1.ReadCnt ∧
      (repository.Get D C c biz bizId).1.1.LikeCnt = (D.Get c.dao biz bizId).1.1.LikeCnt ∧
      (repository.Get D C c biz bizId).1.1.CollectCnt
        = (D.Get c.dao biz bizId).1.1.CollectCnt ∧
      (repository.Get D C c biz bizId).1.1 = repository.toDomain (D.Get c.dao biz bizId).1.1) ∧
    ((C.Get c.cache biz bizId).1.2 ≠ none → ∀ e, (D.Get c.dao biz bizId).1.2 = some e →
      (repository.Get D C c biz bizId).1 = (domain.Interactive.zero, some e)) ∧
    (∀ set2 : κ → String → Int → domain.Interactive → Option Error × κ,
      (repository.Get D { C with Set := set2 } c biz bizId).1
        = (repository.Get D C c biz bizId).1) := by
  refine ⟨?_, ?_, ?_, ?_⟩
  · intro h; simp [repository.Get, h]
  · intro h hd
    rcases hx : (C.Get c.cache biz bizId).1.2 with _ | x
    · exact absurd hx h
    · simp [repository.Get, hx, hd, repository.toDomain]
  · intro h e hd
    rcases hx : (C.Get c.cache biz bizId).1.2 with _ | x
    · exact absurd hx h
    · simp [repository.Get, hx, hd]
  · intro set2; rfl

/-- Witness of C5: a cold cache and a store holding the row of
`("article", 1)`; `Get` returns the converted store row. -/
theorem C5_Get_cache_aside_witness :
    (cache.mem.Get ⟨[], []⟩ "article" 1).1.2 ≠ none ∧
    (dao.gorm.Get ⟨⟨[⟨1, 1, "article", 4, 2, 1, 0, 0⟩], [], []⟩, [], []⟩ "article" 1).1.2
      = none ∧
    (repository.Get dao.gorm cache.mem
      ⟨⟨⟨[⟨1, 1, "article", 4, 2, 1, 0, 0⟩], [], []⟩, [], []⟩, ⟨[], []⟩, []⟩
      "article" 1).1.1.ReadCnt = 4 :=
  ⟨by decide, by decide,
    ((C5_Get_cache_aside dao.gorm cache.mem
      ⟨⟨⟨[⟨1, 1, "article", 4, 2, 1, 0, 0⟩], [], []⟩, [], []⟩, ⟨[], []⟩, []⟩
      "article" 1).2.1 (by decide) (by decide)).2.2.1.trans (by decide)⟩

/-- C9: the service's `Get`, over every repository implementation and both
orders in which the two checks can run.  When `Repository.Get` succeeds: an
error is returned exactly when the `Liked` check or the `Collected` check
returns one; the returned error is then the error of one of the two checks;
and when both succeed the result is the repository's snapshot with `Liked`
and `Collected` set to the two checks' results, with no error. -/
theorem C9_Get_fails_iff_a_check_fails {ρ : Type} (R : repository.InteractiveRepository ρ)
    (r : ρ) (biz : String) (bizId uid : Int)
    (hget : (R.Get r biz bizId).1.2 = none) :
    (∀ l c, l = (R.Liked (R.Get r biz bizId).2 biz bizId uid) →
      c = (R.Collected l.2 biz bizId uid) →
      (((service.Get R true r biz bizId uid).1.2 ≠ none ↔ (l.1.2 ≠ none ∨ c.1.2 ≠ none)) ∧
        ((service.Get R true r biz bizId uid).1.2 ≠ none →
          (service.Get R true r biz bizId uid).1.2 = l.1.2 ∨
          (service.Get R true r biz bizId uid).1.2 = c.1.2) ∧
        (l.1.2 = none → c.1.2 = none →
          (service.Get R true r biz bizId uid).1
            = ({ (R.Get r biz bizId).1.1 with Liked := l.1.1, Collected := c.1.1 }, none)))) ∧
    (∀ l c, c = (R.Collected (R.Get r biz bizId).2 biz bizId uid) →
      l = (R.Liked c.2 biz bizId uid) →
      (((service.Get R false r biz bizId uid).1.2 ≠ none ↔ (l.1.2 ≠ none ∨ c.1.2 ≠ none)) ∧
        ((service.Get R false r biz bizId uid).1.2 ≠ none →
          (service.Get R false r biz bizId uid).1.2 = l.1.2 ∨
          (service.Get R false r biz bizId uid).1.2 = c.1.2) ∧
        (l.1.2 = none → c.1.2 = none →
          (service.Get R false r biz bizId uid).1
            = ({ (R.Get r biz bizId).1.1 with Liked := l.1.1, Collected := c.1.1 }, none)))) := by
  constructor
  · intro l c hl hc
    subst hl; subst hc
    simp only [service.Get, hget, if_true]
    rcases h1 : (R.Liked (R.Get r biz bizId).2 biz bizId uid).1.2 with _ | e1 <;>
    rcases h2 : (R.Collected (R.Liked (R.Get r biz bizId).2 biz bizId uid).2
        biz bizId uid).1.2 with _ | e2 <;>
    simp [service.egWait]
  · intro l c hc hl
    subst hc; subst hl
    simp only [service.Get, hget]
    rcases h1 : (R.Collected (R.Get r biz bizId).2 biz bizId uid).1.2 with _ | e1 <;>
    rcases h2 : (R.Liked (R.Collected (R.Get r biz bizId).2 biz bizId uid).2
        biz bizId uid).1.2 with _ | e2 <;>
    simp [service.egWait]

/-- Witness of C9: the repository's `Get` succeeds, the `Liked` check fails
with error 9 and the `Collected` check succeeds: the service's `Get` fails. -/
theorem C9_Get_fails_iff_a_check_fails_witness :
    ((repository.NewCachedInteractiveRepository dao.gorm cache.mem).Get
      ⟨⟨⟨[⟨1, 1, "article", 4, 2, 1, 0, 0⟩], [], []⟩, [none, some (Error.other 9)], []⟩,
        ⟨[], []⟩, []⟩ "article" 1).1.2 = none ∧
    (service.Get (repository.NewCachedInteractiveRepository dao.gorm cache.mem) true
      ⟨⟨⟨[⟨1, 1, "article", 4, 2, 1, 0, 0⟩], [], []⟩, [none, some (Error.other 9)], []⟩,
        ⟨[], []⟩, []⟩ "article" 1 5).1.2 ≠ none :=
  ⟨by decide,
    ((C9_Get_fails_iff_a_check_fails
      (repository.NewCachedInteractiveRepository dao.gorm cache.mem)
      ⟨⟨⟨[⟨1, 1, "article", 4, 2, 1, 0, 0⟩], [], []⟩, [none, some (Error.other 9)], []⟩,
        ⟨[], []⟩, []⟩ "article" 1 5 (by decide)).1 _ _ rfl rfl).1.2 (Or.inl (by decide))⟩

end webook

namespace webook

/-- C6: the store's `BatchIncrReadCnt` is all-or-nothing.  Whenever the call
does not return `nil` the tables afterwards are the tables before the call;
and for lists of equal length, when the engine runs the begin and the first
`i` increments and fails the increment of pair `i` with `e`, the call returns
`e` and the tables are unchanged, so no earlier pair keeps its increment. -/
theorem C6_BatchIncrReadCnt_all_or_nothing (g : dao.GORMInteractiveDAO)
    (bizs : List String) (bizIds : List Int) (hlen : bizs.length = bizIds.length) :
    ((dao.BatchIncrReadCnt g bizs bizIds).1 ≠ dao.Outcome.returned none →
      (dao.BatchIncrReadCnt g bizs bizIds).2.db = g.db) ∧
    (∀ (i : Nat) (e : Error) (rest : List (Option Error)), i < bizs.length →
      g.faults = List.replicate (i + 1) none ++ some e :: rest →
      (dao.BatchIncrReadCnt g bizs bizIds).1 = dao.Outcome.returned (some e) ∧
      (dao.BatchIncrReadCnt g bizs bizIds).2.db = g.db) := by
  have hroll : (dao.BatchIncrReadCnt g bizs bizIds).1 ≠ dao.Outcome.returned none →
      (dao.BatchIncrReadCnt g bizs bizIds).2.db = g.db := by
    intro h
    unfold dao.BatchIncrReadCnt at h ⊢
    apply dao.runTransaction_rollback
    simpa using h
  refine ⟨hroll, ?_⟩
  intro i e rest hi hf
  have hres : (dao.BatchIncrReadCnt g bizs bizIds).1 = dao.Outcome.returned (some e) := by
    have hloop := dao.batchLoop_fault bizIds e rest bizs 0 i
      { g with faults := g.faults.tail } (by rw [hf]; rfl) hi (by omega)
    unfold dao.BatchIncrReadCnt dao.runTransaction
    have hb : g.faults.headD none = none := by rw [hf]; rfl
    rw [hb]
    dsimp only
    rw [hloop]
    simp
  exact ⟨hres, hroll (by rw [hres]; simp)⟩

/-- Witness of C6: `[("article", 1), ("video", 2)]` on a store where
`("article", 1)` has `ReadCnt = 5`, with the second increment made to fail:
the error is returned and the row of `("article", 1)` still has
`ReadCnt = 5`. -/
theorem C6_BatchIncrReadCnt_all_or_nothing_witness :
    ["article", "video"].length = [(1 : Int), 2].length ∧
    (dao.BatchIncrReadCnt
      ⟨⟨[⟨1, 1, "article", 5, 0, 0, 0, 0⟩], [], []⟩, [none, none, some (Error.other 3)], []⟩
      ["article", "video"] [1, 2]).1 = dao.Outcome.returned (some (Error.other 3)) ∧
    (dao.BatchIncrReadCnt
      ⟨⟨[⟨1, 1, "article", 5, 0, 0, 0, 0⟩], [], []⟩, [none, none, some (Error.other 3)], []⟩
      ["article", "video"] [1, 2]).2.db = ⟨[⟨1, 1, "article", 5, 0, 0, 0, 0⟩], [], []⟩ :=
  ⟨rfl, (C6_BatchIncrReadCnt_all_or_nothing
    ⟨⟨[⟨1, 1, "article", 5, 0, 0, 0, 0⟩], [], []⟩, [none, none, some (Error.other 3)], []⟩
    ["article", "video"] [1, 2] rfl).2 1 (Error.other 3) [] (by decide) rfl⟩

end webook

namespace webook

/-- C7 (the code at the failing input): user 5 likes `("article", 1)` (mark
row with status `1`, `LikeCnt = 1`).  Then `IncrLike("video", 1, 5)` and
`DecrLike("video", 1, 5)` both return no error, and afterwards there is no
like mark row of `(5, "video", 1)` where the claim has exactly one, the mark
table still is the active mark of `("article", 1)`, and the `LikeCnt` of
`("article", 1)` is `2`, one more than before, with no counter row of
`("video", 1)`; `Liked("video", 1, 5)` answers false. -/
theorem C7_like_then_unlike_other_biz_same_id :
    (repository.IncrLike dao.gorm cache.mem
      ⟨⟨⟨[⟨1, 1, "article", 0, 1, 0, 0, 0⟩], [⟨1, 5, 1, "article", 1, 0, 0⟩], []⟩, [], []⟩,
        ⟨[], []⟩, []⟩ "video" 1 5).1 = none ∧
    (repository.DecrLike dao.gorm cache.mem
      (repository.IncrLike dao.gorm cache.mem
        ⟨⟨⟨[⟨1, 1, "article", 0, 1, 0, 0, 0⟩], [⟨1, 5, 1, "article", 1, 0, 0⟩], []⟩, [], []⟩,
          ⟨[], []⟩, []⟩ "video" 1 5).2 "video" 1 5).1 = none ∧
    (repository.DecrLike dao.gorm cache.mem
      (repository.IncrLike dao.gorm cache.mem
        ⟨⟨⟨[⟨1, 1, "article", 0, 1, 0, 0, 0⟩], [⟨1, 5, 1, "article", 1, 0, 0⟩], []⟩, [], []⟩,
          ⟨[], []⟩, []⟩ "video" 1 5).2 "video" 1 5).2.dao.db.userLikeBizs.filter
            (dao.UserLikeBiz.matches 5 "video" 1) = [] ∧
    (repository.DecrLike dao.gorm cache.mem
      (repository.IncrLike dao.gorm cache.mem
        ⟨⟨⟨[⟨1, 1, "article", 0, 1, 0, 0, 0⟩], [⟨1, 5, 1, "article", 1, 0, 0⟩], []⟩, [], []⟩,
          ⟨[], []⟩, []⟩ "video" 1 5).2 "video" 1 5).2.dao.db.userLikeBizs
      = [⟨1, 5, 1, "article", 1, 0, 0⟩] ∧
    (repository.DecrLike dao.gorm cache.mem
      (repository.IncrLike dao.gorm cache.mem
        ⟨⟨⟨[⟨1, 1, "article", 0, 1, 0, 0, 0⟩], [⟨1, 5, 1, "article", 1, 0, 0⟩], []⟩, [], []⟩,
          ⟨[], []⟩, []⟩ "video" 1 5).2 "video" 1 5).2.dao.db.interactives
      = [⟨1, 1, "article", 0, 2, 0, 0, 0⟩] ∧
    (repository.Liked dao.gorm
      (repository.DecrLike dao.gorm cache.mem
        (repository.IncrLike dao.gorm cache.mem
          ⟨⟨⟨[⟨1, 1, "article", 0, 1, 0, 0, 0⟩], [⟨1, 5, 1, "article", 1, 0, 0⟩], []⟩, [], []⟩,
            ⟨[], []⟩, []⟩ "video" 1 5).2 "video" 1 5).2 "video" 1 5).1 = (false, none) := by
  decide

end webook

namespace webook

/-- C8 (the code at the failing input): with counter rows for items 1 and 3
of `"article"`, the batch lookup for `[1, 2, 3]` returns one row at every
layer: the store and the repository return the row of item 1 only, and the
service's map has the single key 1, with no entry for item 3.  When no id
has a row the store returns `ErrRecordNotFound` instead of an empty result. -/
theorem C8_GetByIds_returns_one_row :
    (dao.GetByIds
      ⟨⟨[⟨1, 1, "article", 5, 2, 1, 0, 0⟩, ⟨2, 3, "article", 7, 0, 0, 0, 0⟩], [], []⟩, [], []⟩
      "article" [1, 2, 3]).1 = ([⟨1, 1, "article", 5, 2, 1, 0, 0⟩], none) ∧
    (service.GetByIds (repository.NewCachedInteractiveRepository dao.gorm cache.mem)
      ⟨⟨⟨[⟨1, 1, "article", 5, 2, 1, 0, 0⟩, ⟨2, 3, "article", 7, 0, 0, 0, 0⟩], [], []⟩,
        [], []⟩, ⟨[], []⟩, []⟩ "article" [1, 2, 3]).1
      = ([(1, ⟨1, 5, 2, 1, false, false⟩)], none) ∧
    ((service.GetByIds (repository.NewCachedInteractiveRepository dao.gorm cache.mem)
      ⟨⟨⟨[⟨1, 1, "article", 5, 2, 1, 0, 0⟩, ⟨2, 3, "article", 7, 0, 0, 0, 0⟩], [], []⟩,
        [], []⟩, ⟨[], []⟩, []⟩ "article" [1, 2, 3]).1.1.get 3) = none ∧
    (service.GetByIds (repository.NewCachedInteractiveRepository dao.gorm cache.mem)
      ⟨⟨⟨[⟨1, 1, "article", 5, 2, 1, 0, 0⟩], [], []⟩, [], []⟩, ⟨[], []⟩, []⟩
      "article" [2]).1 = ([], some Error.ErrRecordNotFound) := by
  decide

/-- The store's `GetByIds` never returns more than one row. -/
theorem GetByIds_at_most_one_row (g : dao.GORMInteractiveDAO) (biz : String)
    (bizIds : List Int) : (dao.GetByIds g biz bizIds).1.1.length ≤ 1 := by
  unfold dao.GetByIds dao.query
  split
  · simp
  · dsimp only
    split <;> simp

end webook
